import Mathlib

/-!
Verification development for the graphics manager core (`src/kitty/graphics.c`).

The C code is shallowly embedded: unsigned machine integers become `Nat` with
explicit reductions modulo 2^32 / 2^64 at the points where C arithmetic wraps,
signed 32-bit integers become `Int` with explicit two's-complement wrapping,
fallible code returns `Option`, and the mutable `GraphicsManager` becomes a
record passed explicitly.  Floating point fields (the `src_rect` / vertex data
of render entries) are outside the integer model and are omitted; no claim
below depends on them.  `qsort` is modelled as a deterministic insertion sort
directed by the translated C comparator; where a claim depends on comparator
results that are orientation-independent this is noted at the claim.
-/

namespace Kitty

/-- Reduction modulo 2^32, the effect of storing into a `uint32_t`. -/
def u32 (n : Nat) : Nat := n % 4294967296

/-- C `uint32_t` subtraction `a - b` (wraps modulo 2^32). -/
def u32sub (a b : Nat) : Nat := (a % 4294967296 + 4294967296 - b % 4294967296) % 4294967296

/-- C `size_t` subtraction `a - b` (wraps modulo 2^64). -/
def u64sub (a b : Nat) : Nat :=
  (a % 18446744073709551616 + 18446744073709551616 - b % 18446744073709551616) % 18446744073709551616

/-- Reinterpret the low 32 bits of a `Nat` as a two's-complement `int32_t`
(the effect of a C conversion from an unsigned value to `int32_t`). -/
def toInt32 (n : Nat) : Int :=
  if n % 4294967296 < 2147483648 then ((n % 4294967296 : Nat) : Int)
  else ((n % 4294967296 : Nat) : Int) - 4294967296

/-- Wrap an integer into `int32_t` range (two's complement), the effect of C
`int` arithmetic that overflows on common hardware. -/
def int32wrapI (i : Int) : Int := toInt32 (i % 4294967296).toNat

/-- Reinterpret an `int32_t` value as a `uint32_t` (the usual arithmetic
conversion applied when a signed value meets an unsigned one in C). -/
def uofInt32 (i : Int) : Nat := (i % 4294967296).toNat

/-- `STORAGE_LIMIT` from graphics.c: `320u * 1024u * 1024u`. -/
def STORAGE_LIMIT : Nat := 320 * 1024 * 1024

/-- `MAX_DATA_SZ` from `handle_add_command`: `4u * 100000000u`. -/
def MAX_DATA_SZ : Nat := 4 * 100000000

/-- `CellPixelSize` (cell dimensions in pixels, `uint32_t` each). -/
structure CellPixelSize where
  width : Nat
  height : Nat
deriving DecidableEq

/-- The cursor coordinates the core reads and advances (`index_type`, unsigned). -/
structure Cursor where
  x : Nat
  y : Nat
deriving DecidableEq

/-- `ScrollData`: parameters of `grman_scroll_images`. -/
structure ScrollData where
  amt : Int
  limit : Int
  margin_top : Nat
  margin_bottom : Nat
  has_margins : Bool
deriving DecidableEq

/-- The header fields of a `GraphicsCommand` that the core reads.  Character
valued fields (`action`, `delete_action`, `transmission_type`, `compressed`)
are `Char` with `Char.ofNat 0` for "unset"; numeric fields are `Nat` except
the signed `z_index`. -/
structure GraphicsCommand where
  action : Char
  delete_action : Char
  transmission_type : Char
  compressed : Char
  id : Nat
  image_number : Nat
  placement_id : Nat
  quiet : Nat
  format : Nat
  more : Nat
  data_width : Nat
  data_height : Nat
  data_sz : Nat
  data_offset : Nat
  payload_sz : Nat
  x_offset : Nat
  y_offset : Nat
  width : Nat
  height : Nat
  num_cells : Nat
  num_lines : Nat
  cell_x_offset : Nat
  cell_y_offset : Nat
  z_index : Int
deriving DecidableEq

/-- `ImageRef` (a placement).  The float `src_rect` is omitted (it is derived
data recomputed by `update_src_rect` and used only by the GPU renderer). -/
structure ImageRef where
  client_id : Nat
  src_x : Nat
  src_y : Nat
  src_width : Nat
  src_height : Nat
  z_index : Int
  start_row : Int
  start_column : Int
  num_cols : Nat
  num_rows : Nat
  cell_x_offset : Nat
  cell_y_offset : Nat
  effective_num_cols : Nat
  effective_num_rows : Nat
deriving DecidableEq

/-- `LoadData`: the staging state of an image transmission.  `buf` holds the
accumulated bytes (abstracted as `Nat`s); `solid` is the `is_opaque` flag of
the source and `aligned4` its `is_4byte_aligned` flag. -/
structure LoadData where
  buf : List Nat
  buf_capacity : Nat
  buf_used : Nat
  data : List Nat
  data_sz : Nat
  mapped_file : Bool
  mapped_file_sz : Nat
  solid : Bool
  aligned4 : Bool
deriving DecidableEq

/-- `Image`: a logical bitmap plus identity, staging and placements.
`refcnt` of the source is represented by `refs.length`. -/
structure Image where
  internal_id : Nat
  client_id : Nat
  client_number : Nat
  width : Nat
  height : Nat
  texture_id : Nat
  atime : Nat
  used_storage : Nat
  data_loaded : Bool
  load_data : LoadData
  refs : List ImageRef
deriving DecidableEq

/-- The `GraphicsManager` state relevant to the claims (render data is handled
by the standalone layer functions below). -/
structure GraphicsManager where
  images : List Image
  used_storage : Nat
  layers_dirty : Bool
  loading_image : Nat
deriving DecidableEq

/-- One entry of the per-frame render data (`ImageRenderData`); the 16 float
vertices are outside the integer model. -/
structure ImageRenderData where
  z_index : Int
  image_id : Nat
  group_count : Nat
  texture_id : Nat
deriving DecidableEq

def zeroLoadData : LoadData :=
  { buf := [], buf_capacity := 0, buf_used := 0, data := [], data_sz := 0,
    mapped_file := false, mapped_file_sz := 0, solid := false, aligned4 := false }

def zeroRef : ImageRef :=
  { client_id := 0, src_x := 0, src_y := 0, src_width := 0, src_height := 0,
    z_index := 0, start_row := 0, start_column := 0, num_cols := 0, num_rows := 0,
    cell_x_offset := 0, cell_y_offset := 0, effective_num_cols := 0, effective_num_rows := 0 }

def zeroImage : Image :=
  { internal_id := 0, client_id := 0, client_number := 0, width := 0, height := 0,
    texture_id := 0, atime := 0, used_storage := 0, data_loaded := false,
    load_data := zeroLoadData, refs := [] }

instance : Inhabited ImageRef := ⟨zeroRef⟩

instance : Inhabited Image := ⟨zeroImage⟩

/-- The all-unset graphics command (a parsed command starts zeroed). -/
def zeroCommand : GraphicsCommand :=
  { action := Char.ofNat 0, delete_action := Char.ofNat 0, transmission_type := Char.ofNat 0,
    compressed := Char.ofNat 0, id := 0, image_number := 0, placement_id := 0, quiet := 0,
    format := 0, more := 0, data_width := 0, data_height := 0, data_sz := 0, data_offset := 0,
    payload_sz := 0, x_offset := 0, y_offset := 0, width := 0, height := 0, num_cells := 0,
    num_lines := 0, cell_x_offset := 0, cell_y_offset := 0, z_index := 0 }

/-! ## Command responses (`finish_command_response`, graphics.c lines 520-543)

The global `command_response` buffer is passed explicitly as a `String`; the
empty string models the `!command_response[0]` "ok" state.  `snprintf`
truncation at the static buffer size is not modelled (640 bytes is never
reached by the bounded numeric fields). -/

def finish_command_response (quiet : Nat) (command_response : String) (data_loaded : Bool)
    (iid placement_id image_number : Nat) : Option String :=
  let is_ok_response := command_response = ""
  if quiet ≠ 0 ∧ (is_ok_response ∨ quiet > 1) then none
  else if iid ≠ 0 ∨ image_number ≠ 0 then
    if is_ok_response ∧ data_loaded = false then none
    else
      some ("G"
        ++ (if iid ≠ 0 then "i=" ++ toString iid else "")
        ++ (if image_number ≠ 0 then ",I=" ++ toString image_number else "")
        ++ (if placement_id ≠ 0 then ",p=" ++ toString placement_id else "")
        ++ ";" ++ (if is_ok_response then "OK" else command_response))
  else none

/-! ## Delete filters (graphics.c lines 824-851) -/

/-- `y_filter_func`, translated exactly: the first conjunct compares signed
(`start_row <= (int32_t)y_offset - 1`); in the second conjunct the source
casts the RESULT of the comparison `g->y_offset - 1 < ref->start_row +
ref->effective_num_rows` to `int32_t`, so the comparison itself is performed
in `uint32_t` arithmetic (`y_offset - 1` wraps, and `start_row` is converted
to unsigned before the addition). -/
def y_filter_func (g : GraphicsCommand) (ref : ImageRef) : Bool :=
  decide (ref.start_row ≤ toInt32 g.y_offset - 1)
    && decide (u32sub g.y_offset 1 < u32 (uofInt32 ref.start_row + ref.effective_num_rows))

/-- The row-span membership predicate the spec states for `y` deletes: the
query row `y_offset - 1` falls inside `[start_row, start_row +
effective_num_rows)`, evaluated over the integers. -/
def specRowContains (ref : ImageRef) (y_offset : Nat) : Prop :=
  ref.start_row ≤ (y_offset : Int) - 1 ∧
    (y_offset : Int) - 1 < ref.start_row + (ref.effective_num_rows : Int)

instance (ref : ImageRef) (y : Nat) : Decidable (specRowContains ref y) := by
  unfold specRowContains; infer_instance

/-- `filter_refs` (graphics.c lines 707-723) without the `only_first_image`
short-circuit (that flag is set only for `n`/`N` deletes).  Placements whose
filter fires are removed; an image left with no placements is reaped when
`free_images` is set or it is anonymous. -/
def filter_refs_step (free_images : Bool) (f : ImageRef → Image → Bool)
    (img : Image) (acc : List Image × Nat × Bool) : List Image × Nat × Bool :=
  let kept := img.refs.filter (fun r => !(f r img))
  let dirty2 := acc.2.2 || decide (kept.length ≠ img.refs.length)
  let img2 := { img with refs := kept }
  if kept.length = 0 ∧ (free_images ∨ img.client_id = 0) then
    (acc.1, u64sub acc.2.1 img.used_storage, true)
  else (img2 :: acc.1, acc.2.1, dirty2)

def filter_refs (m : GraphicsManager) (free_images : Bool)
    (f : ImageRef → Image → Bool) : GraphicsManager :=
  let r := m.images.foldr (filter_refs_step free_images f) ([], m.used_storage, m.layers_dirty)
  { m with images := r.1, used_storage := r.2.1, layers_dirty := r.2.2 }

/-- The `y`/`Y` arm of `handle_delete_command` (graphics.c lines 859-868):
`filter_refs(self, g, g->delete_action == 'Y', y_filter_func, cell, false)`. -/
def handle_delete_y (m : GraphicsManager) (g : GraphicsCommand) : GraphicsManager :=
  filter_refs m (g.delete_action = 'Y') (fun r _ => y_filter_func g r)

/-! ## A deterministic model of `qsort`

`qsort` with a consistent comparator may return any permutation that is
non-decreasing under the comparator; we fix insertion sort as a concrete
deterministic refinement.  `insCmp le a l` places `a` before the first element
`b` of `l` with `le a b = true`. -/

def insCmp {α : Type} (le : α → α → Bool) (a : α) : List α → List α
  | [] => [a]
  | b :: t => if le a b then a :: b :: t else b :: insCmp le a t

def isortCmp {α : Type} (le : α → α → Bool) : List α → List α
  | [] => []
  | a :: t => insCmp le a (isortCmp le t)

theorem mem_insCmp {α : Type} (le : α → α → Bool) (a x : α) :
    ∀ l : List α, x ∈ insCmp le a l ↔ x = a ∨ x ∈ l := by
  intro l
  induction l with
  | nil => simp [insCmp]
  | cons b t ih =>
    by_cases h : le a b = true
    · simp [insCmp, h]
    · simp only [insCmp, h]
      simp only [Bool.false_eq_true, if_false, List.mem_cons, ih]
      tauto

theorem mem_isortCmp {α : Type} (le : α → α → Bool) (x : α) :
    ∀ l : List α, x ∈ isortCmp le l ↔ x ∈ l := by
  intro l
  induction l with
  | nil => simp [isortCmp]
  | cons a t ih => simp [isortCmp, mem_insCmp, ih]

theorem pairwise_insCmp {α : Type} (le : α → α → Bool) (R : α → α → Prop) (P : α → Prop)
    (hcmp : ∀ a b, P a → P b → (if le a b then R a b else R b a))
    (htrans : ∀ a b c, P a → P b → P c → R a b → R b c → R a c) :
    ∀ (l : List α) (a : α), P a → (∀ x ∈ l, P x) → l.Pairwise R →
      (insCmp le a l).Pairwise R := by
  intro l
  induction l with
  | nil => intro a _ _ _; simp [insCmp]
  | cons b t ih =>
    intro a ha hmem hpw
    have hb : P b := hmem b (by simp)
    have htmem : ∀ x ∈ t, P x := fun x hx => hmem x (by simp [hx])
    rcases List.pairwise_cons.mp hpw with ⟨hbt, hpt⟩
    simp only [insCmp]
    by_cases h : le a b = true
    · simp only [h, if_true]
      refine List.pairwise_cons.mpr ⟨?_, hpw⟩
      intro x hx
      have hab : R a b := by have := hcmp a b ha hb; simpa [h] using this
      rcases List.mem_cons.mp hx with rfl | hxt
      · exact hab
      · exact htrans a b x ha hb (htmem x hxt) hab (hbt x hxt)
    · simp only [h, if_false]
      refine List.pairwise_cons.mpr ⟨?_, ih a ha htmem hpt⟩
      intro x hx
      rcases (mem_insCmp le a x t).mp hx with rfl | hxt
      · have := hcmp x b ha hb; simpa [h] using this
      · exact hbt x hxt

theorem pairwise_isortCmp {α : Type} (le : α → α → Bool) (R : α → α → Prop) (P : α → Prop)
    (hcmp : ∀ a b, P a → P b → (if le a b then R a b else R b a))
    (htrans : ∀ a b c, P a → P b → P c → R a b → R b c → R a c) :
    ∀ l : List α, (∀ x ∈ l, P x) → (isortCmp le l).Pairwise R := by
  intro l
  induction l with
  | nil => intro _; simp [isortCmp]
  | cons a t ih =>
    intro hmem
    have ha : P a := hmem a (by simp)
    have htmem : ∀ x ∈ t, P x := fun x hx => hmem x (by simp [hx])
    have hsorted : ∀ x ∈ isortCmp le t, P x := by
      intro x hx; exact htmem x ((mem_isortCmp le x t).mp hx)
    exact pairwise_insCmp le R P hcmp htrans (isortCmp le t) a ha hsorted (ih htmem)

/-! ## Storage quota and eviction (graphics.c lines 116-152, 928-935) -/

/-- `trim_predicate`: an image that is not loaded or has no placements. -/
def trim_predicate (img : Image) : Bool :=
  !img.data_loaded || img.refs.length == 0

/-- `add_trim_predicate`: not loaded, or anonymous with no placements. -/
def add_trim_predicate (img : Image) : Bool :=
  !img.data_loaded || (img.client_id == 0 && img.refs.length == 0)

/-- `remove_images`: walk the image array from the top, removing every image
matching `pred` other than the one with internal id `skip`.  Each removal
subtracts the image's `used_storage` from the manager total (`free_image`)
and marks the layers dirty (`remove_image`). -/
def remove_images_step (pred : Image → Bool) (skip : Nat)
    (img : Image) (acc : List Image × Nat × Bool) : List Image × Nat × Bool :=
  if img.internal_id ≠ skip ∧ pred img then
    (acc.1, u64sub acc.2.1 img.used_storage, true)
  else (img :: acc.1, acc.2.1, acc.2.2)

def remove_images (m : GraphicsManager) (pred : Image → Bool) (skip : Nat) : GraphicsManager :=
  let r := m.images.foldr (remove_images_step pred skip) ([], m.used_storage, m.layers_dirty)
  { m with images := r.1, used_storage := r.2.1, layers_dirty := r.2.2 }

/-- The `oldest_last` comparator: `b->atime - a->atime`, so images sort by
atime descending (newest first).  `monotonic_t` is a 64-bit signed clock that
cannot overflow on subtraction of realistic values, hence plain `Int`. -/
def oldest_last (a b : Image) : Int := (b.atime : Int) - (a.atime : Int)

/-- Removal of the last (oldest, after sorting) image in the eviction loop. -/
def evict_last (m : GraphicsManager) : GraphicsManager :=
  { m with images := m.images.dropLast,
           used_storage := u64sub m.used_storage (m.images.getLastD zeroImage).used_storage,
           layers_dirty := true }

/-- The `while (used_storage > storage_limit && image_count > 0)` loop of
`apply_storage_quota`, with explicit fuel (each iteration removes one image,
so `image_count + 1` fuel always suffices). -/
def evict_loop : Nat → GraphicsManager → Nat → GraphicsManager
  | 0, m, _ => m
  | fuel + 1, m, limit =>
    if m.used_storage > limit ∧ m.images.length > 0 then
      evict_loop fuel (evict_last m) limit
    else m

/-- `apply_storage_quota` (graphics.c lines 141-152): trim unreferenced or
unloaded images (sparing the just-added one), then, unless already under the
limit, drop images in `atime` order (oldest last) until under quota; force
`used_storage = 0` when no image remains. -/
def apply_storage_quota (m : GraphicsManager) (storage_limit : Nat)
    (currently_added_image_internal_id : Nat) : GraphicsManager :=
  let m1 := remove_images m trim_predicate currently_added_image_internal_id
  if m1.used_storage < storage_limit then m1
  else
    let m2 := { m1 with images := isortCmp (fun a b => decide (oldest_last a b ≤ 0)) m1.images }
    let m3 := evict_loop (m2.images.length + 1) m2 storage_limit
    if m3.images.length = 0 then { m3 with used_storage := 0 } else m3

/-- The post-add quota step of `grman_handle_command` (lines 932-934):
`if (self->used_storage > STORAGE_LIMIT) apply_storage_quota(self,
STORAGE_LIMIT, added_image_id);`. -/
def grman_post_add_quota (m : GraphicsManager) (added_image_id : Nat) : GraphicsManager :=
  if m.used_storage > STORAGE_LIMIT then apply_storage_quota m STORAGE_LIMIT added_image_id
  else m

/-! ## Put (graphics.c lines 549-615) -/

/-- `update_dest_rect`: derive the effective cell span.  A zero commanded span
is replaced by `ceil((src extent + sub-cell offset) / cell size)`, written as
the source writes it (truncating division plus a remainder test). -/
def update_dest_rect (ref : ImageRef) (num_cols num_rows : Nat) (cell : CellPixelSize) :
    ImageRef :=
  let nc :=
    if num_cols = 0 then
      let t := ref.src_width + ref.cell_x_offset
      let q := t / cell.width
      if t > q * cell.width then q + 1 else q
    else num_cols
  let nr :=
    if num_rows = 0 then
      let t := ref.src_height + ref.cell_y_offset
      let q := t / cell.height
      if t > q * cell.height then q + 1 else q
    else num_rows
  { ref with effective_num_cols := nc, effective_num_rows := nr }

/-- The placement-field assignments of `handle_put_command` (graphics.c lines
601-611).  All fields of the (new or reused) ref are overwritten.  Note the
source-rect clamp: `src_width = MIN(src_width, width - (width > src_x ? src_x
: width))`, which clamps the extent to 0 when `src_x >= width` but leaves
`src_x` itself untouched.  `cell.width - 1` is `uint32_t` arithmetic.
`update_src_rect` (float-only) is omitted. -/
def put_make_ref (g : GraphicsCommand) (img : Image) (c : Cursor) (cell : CellPixelSize) :
    ImageRef :=
  let src_x := g.x_offset
  let src_y := g.y_offset
  let w0 := if g.width ≠ 0 then g.width else img.width
  let h0 := if g.height ≠ 0 then g.height else img.height
  let src_width := min w0 (img.width - (if img.width > src_x then src_x else img.width))
  let src_height := min h0 (img.height - (if img.height > src_y then src_y else img.height))
  let ref : ImageRef :=
    { client_id := if img.client_id ≠ 0 then g.placement_id else 0,
      src_x := src_x, src_y := src_y, src_width := src_width, src_height := src_height,
      z_index := g.z_index,
      start_row := (c.y : Int), start_column := (c.x : Int),
      num_cols := g.num_cells, num_rows := g.num_lines,
      cell_x_offset := min g.cell_x_offset (u32sub cell.width 1),
      cell_y_offset := min g.cell_y_offset (u32sub cell.height 1),
      effective_num_cols := 0, effective_num_rows := 0 }
  update_dest_rect ref g.num_cells g.num_lines cell

/-- Result of a put: updated manager, updated cursor, the `command_response`
string ("" when no failure was recorded), and the returned client id. -/
structure PutResult where
  manager : GraphicsManager
  cursor : Cursor
  response : String
  ret : Nat
deriving DecidableEq

/-- Image lookup for a put: by client id when `g.id` is set, else by client
number (newest matching, i.e. the highest index), as in `img_by_client_id` /
`img_by_client_number`.  Returns the index into `images`. -/
def resolve_put_image (m : GraphicsManager) (g : GraphicsCommand) : Option Nat :=
  if g.id ≠ 0 then m.images.findIdx? (fun img => img.client_id == g.id)
  else if g.image_number ≠ 0 then
    match (m.images.reverse).findIdx? (fun img => img.client_number == g.image_number) with
    | some j => some (m.images.length - 1 - j)
    | none => none
  else none

/-- `handle_put_command` (graphics.c lines 576-615) for the dispatcher path
(`img == NULL` on entry).  `now` stands for `monotonic()`.  On success a
placement is appended (or an existing placement with the commanded placement
id is overwritten in place) and the cursor advances by the effective span
(one less row), both with `uint32_t` wrap-around as in the source. -/
def handle_put_command (m : GraphicsManager) (g : GraphicsCommand) (c : Cursor)
    (cell : CellPixelSize) (now : Nat) : PutResult :=
  match resolve_put_image m g with
  | none =>
    { manager := m, cursor := c,
      response := "ENOENT:Put command refers to non-existent image with id: "
        ++ toString g.id ++ " and number: " ++ toString g.image_number,
      ret := g.id }
  | some i =>
    let img := m.images.getD i zeroImage
    if img.data_loaded = false then
      { manager := m, cursor := c,
        response := "ENOENT:Put command refers to image with id: " ++ toString g.id
          ++ " that could not load its data",
        ret := img.client_id }
    else
      let ref := put_make_ref g img c cell
      let refs2 :=
        if g.placement_id ≠ 0 ∧ img.client_id ≠ 0 then
          match img.refs.findIdx? (fun r => r.client_id == g.placement_id) with
          | some j => img.refs.set j ref
          | none => img.refs ++ [ref]
        else img.refs ++ [ref]
      let img2 := { img with atime := now, refs := refs2 }
      { manager := { m with images := m.images.set i img2, layers_dirty := true },
        cursor := { x := u32 (c.x + ref.effective_num_cols),
                    y := u32 (c.y + u32sub ref.effective_num_rows 1) },
        response := "",
        ret := img.client_id }

/-! ## Scrolling (graphics.c lines 738-792)

In `ref_within_region` and `ref_outside_region` the comparisons mixing
`start_row` (`int32_t`) with `effective_num_rows` and the margins
(`index_type`, i.e. `uint32_t`) follow C's usual arithmetic conversions: the
sum `start_row + effective_num_rows` is computed and compared as `uint32_t`,
while a bare `start_row` compares signed against a margin cast to
`int32_t`. -/

def ref_within_region (ref : ImageRef) (margin_top margin_bottom : Nat) : Prop :=
  ref.start_row ≥ toInt32 margin_top ∧
    u32 (uofInt32 ref.start_row + ref.effective_num_rows) ≤ margin_bottom

instance (ref : ImageRef) (t b : Nat) : Decidable (ref_within_region ref t b) := by
  unfold ref_within_region; infer_instance

def ref_outside_region (ref : ImageRef) (margin_top margin_bottom : Nat) : Prop :=
  u32 (uofInt32 ref.start_row + ref.effective_num_rows) ≤ margin_top ∨
    ref.start_row > toInt32 margin_bottom

instance (ref : ImageRef) (t b : Nat) : Decidable (ref_outside_region ref t b) := by
  unfold ref_outside_region; infer_instance

/-- `scroll_filter_margins_func`: returns the mutated ref together with the
"remove this placement" verdict.  Placements outside the margin region are
untouched; those leaving it after the shift are removed; those partially
crossing are clipped (`src_y`/`src_height` for an upward exit, `src_height`
for a downward one), with all arithmetic wrapped as the source's `uint32_t` /
`int32_t` operations.  The float `update_src_rect` refresh is omitted. -/
def scroll_filter_margins_func (d : ScrollData) (cell : CellPixelSize)
    (ref : ImageRef) : ImageRef × Bool :=
  if ref_within_region ref d.margin_top d.margin_bottom then
    let r1 := { ref with start_row := int32wrapI (ref.start_row + d.amt) }
    if ref_outside_region r1 d.margin_top d.margin_bottom then (r1, true)
    else if r1.start_row < toInt32 d.margin_top then
      let clipped_rows := u32sub d.margin_top (uofInt32 r1.start_row)
      let clip_amt := u32 (cell.height * clipped_rows)
      if r1.src_height ≤ clip_amt then (r1, true)
      else
        let r2 := { r1 with
          src_y := u32 (r1.src_y + clip_amt),
          src_height := r1.src_height - clip_amt,
          effective_num_rows := u32sub r1.effective_num_rows clipped_rows }
        let r3 := { r2 with start_row := toInt32 (uofInt32 r2.start_row + clipped_rows) }
        (r3, decide (ref_outside_region r3 d.margin_top d.margin_bottom))
    else if u32 (uofInt32 r1.start_row + r1.effective_num_rows) > d.margin_bottom then
      let clipped_rows :=
        u32sub (u32 (uofInt32 r1.start_row + r1.effective_num_rows)) d.margin_bottom
      let clip_amt := u32 (cell.height * clipped_rows)
      if r1.src_height ≤ clip_amt then (r1, true)
      else
        let r2 := { r1 with
          src_height := r1.src_height - clip_amt,
          effective_num_rows := u32sub r1.effective_num_rows clipped_rows }
        (r2, decide (ref_outside_region r2 d.margin_top d.margin_bottom))
    else (r1, decide (ref_outside_region r1 d.margin_top d.margin_bottom))
  else (ref, false)

/-- `scroll_filter_func` (the no-margins case): shift the row and remove the
placement when its span now ends at or above the limit. -/
def scroll_filter_func (d : ScrollData) (ref : ImageRef) : ImageRef × Bool :=
  let r1 := { ref with start_row := int32wrapI (ref.start_row + d.amt) }
  (r1, decide (r1.start_row + (r1.effective_num_rows : Int) ≤ d.limit))

/-! ## Free client-id allocation (graphics.c lines 323-349) -/

/-- `cmp_client_ids`: `*x - *y` is computed in `uint32_t` and the result is
converted to `int`, so the sign is that of the wrapped 32-bit difference. -/
def cmp_client_ids (a b : Nat) : Int := toInt32 (u32sub a b)

/-- The scan of `get_free_client_id` over the sorted ids: skip duplicates,
and grow `ans` while the ids form the initial segment 1,2,3,...; stop at the
first gap.  `ans = id + 1` is a `uint32_t` increment. -/
def free_id_scan : List Nat → Nat → Nat → Nat
  | [], _, ans => ans
  | id :: t, prev, ans =>
    if id = prev then free_id_scan t prev ans
    else if id ≠ ans then ans
    else free_id_scan t id (u32 (id + 1))

/-- `get_free_client_id`: collect the nonzero client ids, `qsort` them with
`cmp_client_ids` (modelled as insertion sort on that comparator), and scan
for the first gap starting from 1. -/
def get_free_client_id (images : List Image) : Nat :=
  if images.length = 0 then 1
  else
    let client_ids := images.filterMap (fun q => if q.client_id ≠ 0 then some q.client_id else none)
    if client_ids.length = 0 then 1
    else
      let sorted := isortCmp (fun a b => decide (cmp_client_ids a b ≤ 0)) client_ids
      free_id_scan sorted 0 1

/-! ## Render-data sort and group counts (graphics.c lines 617-623, 688-699) -/

/-- `cmp_by_zindex_and_image`: `int ans = a->z_index - b->z_index` wraps in
32 bits; on a tie, `a->image_id - b->image_id` is a `uint64_t` difference
truncated and reinterpreted as `int`. -/
def cmp_by_zindex_and_image (a b : ImageRenderData) : Int :=
  let ans := int32wrapI (a.z_index - b.z_index)
  if ans = 0 then toInt32 (u64sub a.image_id b.image_id) else ans

/-- The `qsort` of the visible render entries, as deterministic insertion
sort on the translated comparator. -/
def sort_render_data (l : List ImageRenderData) : List ImageRenderData :=
  isortCmp (fun a b => decide (cmp_by_zindex_and_image a b ≤ 0)) l

/-- The inner `while (i < count - 1 && render_data[++i].image_id == image_id)`
loop of the group-count pass, with explicit fuel: advance `i` while the NEXT
entry exists below index `count - 1` and carries the same image id; the
returned index is where the outer loop resumes. -/
def gc_inner (ids : List Nat) (image_id : Nat) : Nat → Nat → Nat
  | 0, i => i
  | fuel + 1, i =>
    if i < ids.length - 1 then
      if ids.getD (i + 1) 0 = image_id then gc_inner ids image_id fuel (i + 1)
      else i + 1
    else i

/-- The outer group-count loop (graphics.c lines 691-699): at each resume
point `start`, jump straight to `count` when `start == count - 1`, otherwise
run the inner scan; write `i - start` into `group_count[start]`. -/
def gc_outer (ids : List Nat) : Nat → Nat → List Nat → List Nat
  | 0, _, gc => gc
  | fuel + 1, i, gc =>
    if i < ids.length then
      let j := if i = ids.length - 1 then ids.length
               else gc_inner ids (ids.getD i 0) ids.length i
      gc_outer ids fuel j (gc.set i (j - i))
    else gc

/-- The group counts computed for a sorted render array whose image ids are
`ids` (each entry's `group_count` starts at 0 from `zero_at_ptr`). -/
def groupCounts (ids : List Nat) : List Nat :=
  gc_outer ids (ids.length + 1) 0 (List.replicate ids.length 0)

/-! ## Direct transmission and upload (graphics.c lines 352-518) -/

/-- The direct-transmission append step (graphics.c lines 427-439): when the
payload does not fit the remaining capacity, fail with `EFBIG` unless the
format is PNG and the accumulated size stays within `MAX_DATA_SZ`; in the
surviving case double the capacity once (clamped to `MAX_DATA_SZ`) and append
regardless of whether the payload now fits.  The capacity test `buf_capacity -
buf_used < payload_sz` is `size_t` arithmetic.  Returns `none` for the
`ABRT(EFBIG, ...)` exit. -/
def add_direct_append (fmt : Nat) (ld : LoadData) (payload : List Nat) : Option LoadData :=
  if u64sub ld.buf_capacity ld.buf_used < payload.length then
    if ld.buf_used + payload.length > MAX_DATA_SZ ∨ fmt ≠ 100 then none
    else some { ld with
      buf_capacity := min (2 * ld.buf_capacity) MAX_DATA_SZ,
      buf := ld.buf ++ payload,
      buf_used := ld.buf_used + payload.length }
  else some { ld with buf := ld.buf ++ payload, buf_used := ld.buf_used + payload.length }

/-- The final size check and GPU hand-off of `handle_add_command` (graphics.c
lines 507-514): reject when the staged size disagrees with
`(is_opaque ? 3 : 4) * width * height`; then, only when the data is loaded
AND `send_to_gpu` is set, upload the texture, free the load buffer and charge
`required_sz` to the image and the manager.  `tex` stands for the opaque
texture handle produced by `send_image_to_gpu`. -/
def add_finalize_upload (used_storage : Nat) (img : Image) (send_to_gpu : Bool)
    (tex : Nat) : Option (Nat × Image) :=
  let required_sz := (if img.load_data.solid then 3 else 4) * img.width * img.height
  if img.load_data.data_sz ≠ required_sz then none
  else if img.data_loaded && send_to_gpu then
    some (used_storage + required_sz,
      { img with texture_id := tex, load_data := zeroLoadData, used_storage := required_sz })
  else some (used_storage, img)

/-- The fresh-image, direct, uncompressed raw (RGB/RGBA) add path of
`handle_add_command` in one piece: the init block (lines 361-411) for `tt ==
'd'` and `fmt ∈ {24, 32}`, the append step, the `data_loaded` update on
`more == 0`, the `ENODATA` staging check (lines 497-500) and the final
check/upload.  PNG and zlib processing call external decoders (png-reader,
zlib) outside this repository's core and are not taken by this path, so the
function returns `none` for them as it does for every `ABRT` exit; `none`
also covers the response-less partial-chunk return (`!img->data_loaded`).
`now` stands for `monotonic()` and `internal_id` for the counter value. -/
def handle_add_command_direct (used_storage : Nat) (g : GraphicsCommand)
    (payload : List Nat) (now internal_id : Nat) (send_to_gpu : Bool) (tex : Nat) :
    Option (Nat × Image) :=
  let fmt := if g.format = 0 then 32 else g.format
  if g.data_width > 10000 ∨ g.data_height > 10000 then none
  else if fmt = 24 ∨ fmt = 32 then
    let data_sz := g.data_width * g.data_height * (fmt / 8)
    if data_sz = 0 then none
    else
      let img : Image :=
        { internal_id := internal_id, client_id := g.id, client_number := g.image_number,
          width := g.data_width, height := g.data_height, texture_id := 0,
          atime := now, used_storage := 0, data_loaded := false,
          load_data := { zeroLoadData with
            data_sz := data_sz,
            aligned4 := fmt = 32 ∨ g.data_width % 4 = 0,
            solid := fmt = 24,
            buf_capacity := data_sz + (if g.compressed ≠ Char.ofNat 0 then 1024 else 10),
            buf := [], buf_used := 0 },
          refs := [] }
      match add_direct_append fmt img.load_data payload with
      | none => none
      | some ld1 =>
        let img := { img with load_data := ld1, data_loaded := g.more = 0 }
        if img.data_loaded = false then none
        else if g.compressed ≠ Char.ofNat 0 then none
        else if img.load_data.buf_used < img.load_data.data_sz then none
        else
          let img := { img with load_data := { img.load_data with data := img.load_data.buf } }
          add_finalize_upload used_storage img send_to_gpu tex
  else none

/-! ## The dispatcher's response value (`grman_handle_command`, lines 910-953)

`grman_handle_command` computes its return value `ret` (the response string or
NULL) and, separately, mutates the manager through the branch handlers
modelled above.  The response computation is embedded below.  The add branch
calls `handle_add_command`, whose body reaches external collaborators
(`mmap`, zlib, png-reader), so the dispatcher is parameterized by that call's
observables — whether it returned an image (`image != NULL`), the
`command_response` it left behind, and the saved
`last_init_graphics_command` identity fields — and the response logic is
verified for every possible outcome of the call.  The `T`-action follow-up
put (line 931) and the trim/quota steps (lines 933-934) run after `ret` is
computed and do not affect it. -/

/-- The observables of a `handle_add_command` call that the dispatcher's
response logic reads. -/
structure AddOutcome where
  image_some : Bool
  response : String
  init_id : Nat
  init_placement_id : Nat
  init_image_number : Nat
deriving DecidableEq

/-- The `ret` value of `grman_handle_command` (graphics.c lines 910-953):
reject an id+number conflict through `finish_command_response`; the
add/transmit/query group responds via `finish_command_response` (a query with
zero id breaks with only a logged error); a put without id and number breaks
with only a logged error, otherwise it responds; a delete (`d`) never
assigns `ret`; unknown actions only log.  `add` stands for the outcome of
the `handle_add_command` call. -/
def grman_handle_command_response (m : GraphicsManager) (g : GraphicsCommand)
    (c : Cursor) (cell : CellPixelSize) (now : Nat) (add : AddOutcome) : Option String :=
  if g.id ≠ 0 ∧ g.image_number ≠ 0 then
    finish_command_response g.quiet "EINVAL:Must not specify both image id and image number"
      false g.id g.placement_id g.image_number
  else if g.action = Char.ofNat 0 ∨ g.action = 't' ∨ g.action = 'T' ∨ g.action = 'q' then
    if g.action = 'q' ∧ g.id = 0 then none
    else if g.action = 'q' then
      finish_command_response g.quiet add.response add.image_some g.id 0 0
    else
      finish_command_response g.quiet add.response add.image_some
        add.init_id add.init_placement_id add.init_image_number
  else if g.action = 'p' then
    if g.id = 0 ∧ g.image_number = 0 then none
    else
      finish_command_response g.quiet (handle_put_command m g c cell now).response true
        (handle_put_command m g c cell now).ret g.placement_id g.image_number
  else if g.action = 'd' then none
  else none

/-- The emission condition of `finish_command_response` in the claim's
vocabulary: not silenced by the quiet level, carrying an identity, and not an
ok outcome whose data is not loaded. -/
def respondsVia (quiet : Nat) (cr : String) (dl : Bool) (iid inum : Nat) : Prop :=
  ¬(quiet ≥ 2 ∨ (quiet = 1 ∧ cr = "")) ∧ (iid ≠ 0 ∨ inum ≠ 0) ∧ (cr = "" → dl = true)

instance (quiet : Nat) (cr : String) (dl : Bool) (iid inum : Nat) :
    Decidable (respondsVia quiet cr dl iid inum) := by
  unfold respondsVia; infer_instance

/-- The response wire format: `G`, the present identity fields, `;`, then
`OK` or the recorded error text. -/
def response_format (iid inum pid : Nat) (cr : String) : String :=
  "G" ++ (if iid ≠ 0 then "i=" ++ toString iid else "")
    ++ (if inum ≠ 0 then ",I=" ++ toString inum else "")
    ++ (if pid ≠ 0 then ",p=" ++ toString pid else "")
    ++ ";" ++ (if cr = "" then "OK" else cr)

/-! # Claims

Each claim of the specification audit is settled by one theorem below (with a
witness when the theorem carries hypotheses, and a counterexample when the
claim as frozen fails on the code). -/

/-! ## C1: storage quota after an add -/

theorem evict_loop_le (limit : Nat) :
    ∀ (fuel : Nat) (m : GraphicsManager), m.images.length ≤ fuel →
      (evict_loop fuel m limit).used_storage ≤ limit ∨
        (evict_loop fuel m limit).images.length = 0 := by
  intro fuel
  induction fuel with
  | zero =>
    intro m hm
    right
    simpa [evict_loop] using Nat.le_zero.mp hm
  | succ n ih =>
    intro m hm
    by_cases h : m.used_storage > limit ∧ m.images.length > 0
    · rw [evict_loop, if_pos h]
      apply ih
      have : (evict_last m).images.length = m.images.length - 1 := by
        simp [evict_last]
      omega
    · rw [evict_loop, if_neg h]
      rcases Nat.lt_or_ge limit m.used_storage with hlt | hge
      · right
        rcases Nat.eq_zero_or_pos m.images.length with h0 | hpos
        · exact h0
        · exact absurd ⟨hlt, hpos⟩ h
      · left; exact hge

theorem apply_storage_quota_le (m : GraphicsManager) (limit skip : Nat) :
    (apply_storage_quota m limit skip).used_storage ≤ limit := by
  unfold apply_storage_quota
  set m1 := remove_images m trim_predicate skip with hm1
  by_cases h1 : m1.used_storage < limit
  · simpa [h1] using Nat.le_of_lt h1
  · simp only [h1, if_false]
    set m2 : GraphicsManager :=
      { m1 with images := isortCmp (fun a b => decide (oldest_last a b ≤ 0)) m1.images } with hm2
    have hfuel : m2.images.length ≤ m2.images.length + 1 := Nat.le_succ _
    rcases evict_loop_le limit (m2.images.length + 1) m2 hfuel with hle | h0
    · by_cases hz : (evict_loop (m2.images.length + 1) m2 limit).images.length = 0
      · simp [hz]
      · simpa [hz] using hle
    · simp [h0]

theorem remove_images_keeps_skip (m : GraphicsManager) (pred : Image → Bool) (skip : Nat) :
    ∀ img ∈ m.images, img.internal_id = skip →
      img ∈ (remove_images m pred skip).images := by
  have key : ∀ (l : List Image) (init : List Image × Nat × Bool) (img : Image),
      img ∈ l → img.internal_id = skip →
      img ∈ (l.foldr (remove_images_step pred skip) init).1 := by
    intro l
    induction l with
    | nil => intro init img h; cases h
    | cons a t ih =>
      intro init img hmem hid
      rcases List.mem_cons.mp hmem with rfl | ht
      · have : ¬(img.internal_id ≠ skip ∧ pred img = true) := by
          intro hco; exact hco.1 hid
        simp only [List.foldr_cons, remove_images_step, if_neg this]
        exact List.mem_cons_self _ _
      · have hin := ih init img ht hid
        simp only [List.foldr_cons, remove_images_step]
        by_cases hc : a.internal_id ≠ skip ∧ pred a = true
        · simpa [hc] using hin
        · simp only [if_neg hc]
          exact List.mem_cons_of_mem _ hin
  intro img hmem hid
  exact key m.images _ img hmem hid

/-- C1 (amended): after the post-add quota step, `used_storage ≤
STORAGE_LIMIT` always holds, and the unreferenced-trim phase never removes
the just-added image; but (see the counterexample) the atime-ordered LRU
phase is not constrained to spare it. -/
theorem post_add_quota_bounds_storage_and_trim_spares_added
    (m : GraphicsManager) (added : Nat) :
    (grman_post_add_quota m added).used_storage ≤ STORAGE_LIMIT ∧
    (∀ img ∈ m.images, img.internal_id = added →
      img ∈ (remove_images m trim_predicate added).images) := by
  constructor
  · unfold grman_post_add_quota
    by_cases h : m.used_storage > STORAGE_LIMIT
    · simpa [h] using apply_storage_quota_le m STORAGE_LIMIT added
    · simp only [h, if_false]
      omega
  · exact remove_images_keeps_skip m trim_predicate added

def c1_witness_img : Image :=
  { zeroImage with internal_id := 42, client_id := 9, width := 4, height := 4,
                   used_storage := 48, data_loaded := true, atime := 11 }

def c1_witness_m : GraphicsManager :=
  { images := [c1_witness_img], used_storage := 48, layers_dirty := false, loading_image := 0 }

theorem post_add_quota_bounds_storage_and_trim_spares_added_witness :
    (grman_post_add_quota c1_witness_m 42).used_storage ≤ STORAGE_LIMIT ∧
      c1_witness_img ∈ (remove_images c1_witness_m trim_predicate 42).images :=
  ⟨(post_add_quota_bounds_storage_and_trim_spares_added c1_witness_m 42).1,
   (post_add_quota_bounds_storage_and_trim_spares_added c1_witness_m 42).2
     c1_witness_img (by decide) (by decide)⟩

def c1_cex_img : Image :=
  { zeroImage with internal_id := 1, used_storage := 400000000, data_loaded := true, atime := 5 }

def c1_cex_m : GraphicsManager :=
  { images := [c1_cex_img], used_storage := 400000000, layers_dirty := false, loading_image := 0 }

/-- C1 (counterexample): a 10000x10000 RGBA add charges 4*10^8 bytes, which
alone exceeds `STORAGE_LIMIT`; the quota pass then evicts the just-added
image in the LRU phase (the `skip` id only guards the trim phase), leaving
the manager empty. -/
theorem add_can_evict_just_added_image :
    c1_cex_m.used_storage > STORAGE_LIMIT ∧
      c1_cex_m.images = [c1_cex_img] ∧
      c1_cex_img.internal_id = 1 ∧
      (grman_post_add_quota c1_cex_m 1).images = [] := by
  refine ⟨by decide, rfl, rfl, ?_⟩
  decide

/-! ## C2: crop rectangles stay inside the image -/

def c2_cex_m : GraphicsManager :=
  { images := [{ zeroImage with client_id := 3, width := 10, height := 10, data_loaded := true }],
    used_storage := 0, layers_dirty := false, loading_image := 0 }

def c2_cex_g : GraphicsCommand :=
  { zeroCommand with id := 3, x_offset := 20, width := 5 }

/-- C2 (counterexample): a put with commanded `src_x = 20` on a 10-pixel-wide
image succeeds and leaves a live placement with `src_x + src_width = 20 > 10`:
the clamp zeroes `src_width` but does not pull `src_x` into the image. -/
theorem put_creates_crop_exceeding_image_width :
    (handle_put_command c2_cex_m c2_cex_g ⟨0, 0⟩ ⟨8, 16⟩ 7).response = "" ∧
    ((handle_put_command c2_cex_m c2_cex_g ⟨0, 0⟩ ⟨8, 16⟩ 7).manager.images.getD 0
        zeroImage).width = 10 ∧
    ((((handle_put_command c2_cex_m c2_cex_g ⟨0, 0⟩ ⟨8, 16⟩ 7).manager.images.getD 0
        zeroImage).refs.getD 0 zeroRef).src_x +
      (((handle_put_command c2_cex_m c2_cex_g ⟨0, 0⟩ ⟨8, 16⟩ 7).manager.images.getD 0
        zeroImage).refs.getD 0 zeroRef).src_width) = 20 := by
  decide

/-- C2 (amended): a put whose commanded source origin lies inside the image
(`src_x < width`, `src_y < height`) yields a placement with `src_x + src_width
≤ width` and `src_y + src_height ≤ height`; when the origin lies outside, the
extent is clamped to 0 (a degenerate crop) while the origin keeps its
out-of-range value; and margin scrolling preserves both inequalities for
every placement it keeps or clips. -/
theorem put_and_margin_scroll_preserve_src_crop :
    (∀ (g : GraphicsCommand) (img : Image) (c : Cursor) (cell : CellPixelSize),
      g.x_offset < img.width → g.y_offset < img.height →
      (put_make_ref g img c cell).src_x + (put_make_ref g img c cell).src_width ≤ img.width ∧
      (put_make_ref g img c cell).src_y + (put_make_ref g img c cell).src_height ≤ img.height) ∧
    (∀ (g : GraphicsCommand) (img : Image) (c : Cursor) (cell : CellPixelSize),
      img.width ≤ g.x_offset → (put_make_ref g img c cell).src_width = 0) ∧
    (∀ (d : ScrollData) (cell : CellPixelSize) (ref : ImageRef) (W H : Nat),
      H < 4294967296 →
      ref.src_x + ref.src_width ≤ W → ref.src_y + ref.src_height ≤ H →
      (scroll_filter_margins_func d cell ref).1.src_x +
        (scroll_filter_margins_func d cell ref).1.src_width ≤ W ∧
      (scroll_filter_margins_func d cell ref).1.src_y +
        (scroll_filter_margins_func d cell ref).1.src_height ≤ H) := by
  refine ⟨?_, ?_, ?_⟩
  · intro g img c cell hx hy
    simp only [put_make_ref, update_dest_rect]
    constructor
    · have : img.width > g.x_offset := hx
      simp only [this, if_pos]
      omega
    · have : img.height > g.y_offset := hy
      simp only [this, if_pos]
      omega
  · intro g img c cell hx
    have : ¬ img.width > g.x_offset := by omega
    simp only [put_make_ref, update_dest_rect, this, if_neg, not_false_iff]
    simp
  · intro d cell ref W H hH hx hy
    unfold scroll_filter_margins_func
    dsimp only
    split_ifs with h1 h2 h3 h4 h5 h6 <;> dsimp only <;> try exact ⟨hx, hy⟩
    · -- upward clip branch
      refine ⟨hx, ?_⟩
      simp only [u32] at h4 ⊢
      omega
    · -- downward clip branch
      refine ⟨hx, ?_⟩
      simp only [u32] at h6 ⊢
      omega

def c2_wit_img : Image := { zeroImage with client_id := 3, width := 10, height := 12, data_loaded := true }

def c2_wit_g : GraphicsCommand := { zeroCommand with id := 3, x_offset := 4, y_offset := 6 }

def c2_wit_ref : ImageRef :=
  { zeroRef with src_x := 2, src_width := 6, src_y := 1, src_height := 40,
                 start_row := 4, effective_num_rows := 3 }

theorem put_and_margin_scroll_preserve_src_crop_witness :
    ((put_make_ref c2_wit_g c2_wit_img ⟨0, 0⟩ ⟨8, 16⟩).src_x +
        (put_make_ref c2_wit_g c2_wit_img ⟨0, 0⟩ ⟨8, 16⟩).src_width ≤ c2_wit_img.width ∧
      (put_make_ref c2_wit_g c2_wit_img ⟨0, 0⟩ ⟨8, 16⟩).src_y +
        (put_make_ref c2_wit_g c2_wit_img ⟨0, 0⟩ ⟨8, 16⟩).src_height ≤ c2_wit_img.height) ∧
    ((scroll_filter_margins_func ⟨-2, 0, 3, 8, true⟩ ⟨8, 16⟩ c2_wit_ref).1.src_x +
        (scroll_filter_margins_func ⟨-2, 0, 3, 8, true⟩ ⟨8, 16⟩ c2_wit_ref).1.src_width ≤ 10 ∧
      (scroll_filter_margins_func ⟨-2, 0, 3, 8, true⟩ ⟨8, 16⟩ c2_wit_ref).1.src_y +
        (scroll_filter_margins_func ⟨-2, 0, 3, 8, true⟩ ⟨8, 16⟩ c2_wit_ref).1.src_height ≤ 60) :=
  ⟨put_and_margin_scroll_preserve_src_crop.1 c2_wit_g c2_wit_img ⟨0, 0⟩ ⟨8, 16⟩
      (by decide) (by decide),
   put_and_margin_scroll_preserve_src_crop.2.2 ⟨-2, 0, 3, 8, true⟩ ⟨8, 16⟩ c2_wit_ref 10 60
      (by decide) (by decide) (by decide)⟩

/-! ## C3: response emission and format -/

/-- Helper characterization of `finish_command_response`: it returns a
response exactly when the command is not silenced by its quiet level (1
suppresses OK, 2 and above suppress everything) and carries an identity,
except that an ok outcome whose data is not yet fully loaded yields no
response; and every emitted response is `G`, the present identity fields,
`;`, then `OK` or the recorded error text. -/
theorem finish_command_response_some_iff_and_format (quiet : Nat) (cr : String)
    (dl : Bool) (iid pid inum : Nat) :
    ((finish_command_response quiet cr dl iid pid inum).isSome = true ↔
      (¬(quiet ≥ 2 ∨ (quiet = 1 ∧ cr = "")) ∧ (iid ≠ 0 ∨ inum ≠ 0) ∧
        (cr = "" → dl = true))) ∧
    (∀ s, finish_command_response quiet cr dl iid pid inum = some s →
      s = "G" ++ (if iid ≠ 0 then "i=" ++ toString iid else "")
        ++ (if inum ≠ 0 then ",I=" ++ toString inum else "")
        ++ (if pid ≠ 0 then ",p=" ++ toString pid else "")
        ++ ";" ++ (if cr = "" then "OK" else cr)) := by
  unfold finish_command_response
  dsimp only
  by_cases hq : quiet ≠ 0 ∧ (cr = "" ∨ quiet > 1)
  · rw [if_pos hq]
    refine ⟨?_, ?_⟩
    · simp only [Option.isSome_none, Bool.false_eq_true, false_iff]
      intro h
      apply h.1
      rcases hq with ⟨hq0, hq1 | hq1⟩
      · by_cases h2 : quiet ≥ 2
        · exact Or.inl h2
        · exact Or.inr ⟨by omega, hq1⟩
      · exact Or.inl (by omega)
    · intro s hs; cases hs
  · rw [if_neg hq]
    by_cases hid : iid ≠ 0 ∨ inum ≠ 0
    · rw [if_pos hid]
      by_cases hok : cr = "" ∧ dl = false
      · rw [if_pos hok]
        refine ⟨?_, ?_⟩
        · simp only [Option.isSome_none, Bool.false_eq_true, false_iff]
          intro h
          rw [h.2.2 hok.1] at hok
          cases hok.2
        · intro s hs; cases hs
      · rw [if_neg hok]
        refine ⟨?_, ?_⟩
        · simp only [Option.isSome_some, true_iff]
          refine ⟨?_, hid, ?_⟩
          · intro h
            rcases h with h | h
            · exact hq ⟨by omega, Or.inr (by omega)⟩
            · exact hq ⟨by omega, Or.inl h.2⟩
          · intro hcr
            by_contra hd
            exact hok ⟨hcr, by revert hd; cases dl <;> simp⟩
        · intro s hs
          exact (Option.some_inj.mp hs).symm
    · rw [if_neg hid]
      refine ⟨?_, ?_⟩
      · simp only [Option.isSome_none, Bool.false_eq_true, false_iff]
        intro h; exact hid h.2.1
      · intro s hs; cases hs

theorem finish_command_response_some_iff_and_format_witness :
    (finish_command_response 0 "" true 3 0 0).isSome = true ∧
      finish_command_response 0 "" true 3 0 0 = some "Gi=3;OK" :=
  ⟨(finish_command_response_some_iff_and_format 0 "" true 3 0 0).1.mpr
      ⟨by simp, Or.inl (by decide), fun _ => rfl⟩,
   by decide⟩

theorem finish_response_format_exists (quiet : Nat) (cr : String) (dl : Bool)
    (iid pid inum : Nat) (s : String)
    (hs : finish_command_response quiet cr dl iid pid inum = some s) :
    ∃ iid2 inum2 pid2 cr2, s = response_format iid2 inum2 pid2 cr2 := by
  refine ⟨iid, inum, pid, cr, ?_⟩
  have hf := (finish_command_response_some_iff_and_format quiet cr dl iid pid inum).2 s hs
  rw [hf]
  rfl

/-- C3 (amended): `grman_handle_command` builds every response through
`finish_command_response`, so a non-null response is returned exactly when
the command is not silenced by its quiet level, carries an identity, is not
an ok add outcome whose data is not yet loaded, AND the action routes to a
response-producing path: the id+number-conflict rejection, the add/transmit
group (whose identity is the saved init command's), a query with a nonzero
id, or a put with id or number.  A delete command never returns a response
even when not silenced and carrying an identity (its branch never assigns
`ret`), and neither do unknown actions, a query without an id, or a put
without id and number.  Every emitted response has the
`G i=<id>,I=<number>,p=<placement>;(OK | <ERRKIND>:<message>)` form. -/
theorem grman_response_iff_and_format (m : GraphicsManager) (g : GraphicsCommand)
    (c : Cursor) (cell : CellPixelSize) (now : Nat) (add : AddOutcome) :
    ((grman_handle_command_response m g c cell now add).isSome = true ↔
      ((g.id ≠ 0 ∧ g.image_number ≠ 0) ∧
        respondsVia g.quiet "EINVAL:Must not specify both image id and image number" false
          g.id g.image_number) ∨
      (¬(g.id ≠ 0 ∧ g.image_number ≠ 0) ∧
        (((g.action = Char.ofNat 0 ∨ g.action = 't' ∨ g.action = 'T') ∧
            respondsVia g.quiet add.response add.image_some add.init_id add.init_image_number) ∨
         (g.action = 'q' ∧ g.id ≠ 0 ∧
            respondsVia g.quiet add.response add.image_some g.id 0) ∨
         (g.action = 'p' ∧ ¬(g.id = 0 ∧ g.image_number = 0) ∧
            respondsVia g.quiet (handle_put_command m g c cell now).response true
              (handle_put_command m g c cell now).ret g.image_number)))) ∧
    (∀ s, grman_handle_command_response m g c cell now add = some s →
      ∃ iid inum pid cr, s = response_format iid inum pid cr) := by
  constructor
  · unfold grman_handle_command_response
    by_cases hconf : g.id ≠ 0 ∧ g.image_number ≠ 0
    · rw [if_pos hconf]
      rw [(finish_command_response_some_iff_and_format g.quiet
        "EINVAL:Must not specify both image id and image number" false g.id g.placement_id
        g.image_number).1]
      unfold respondsVia
      simp only [hconf.1, hconf.2, ne_eq, not_false_iff, and_true, true_and]
      tauto
    · rw [if_neg hconf]
      by_cases hgrp : g.action = Char.ofNat 0 ∨ g.action = 't' ∨ g.action = 'T' ∨ g.action = 'q'
      · rw [if_pos hgrp]
        by_cases hq : g.action = 'q'
        · by_cases hid : g.id = 0
          · rw [if_pos ⟨hq, hid⟩]
            simp only [Option.isSome_none, Bool.false_eq_true, false_iff]
            intro hR
            rcases hR with ⟨hc, _⟩ | ⟨_, h3⟩
            · exact hconf hc
            · rcases h3 with ⟨hact, _⟩ | ⟨_, hid2, _⟩ | ⟨hp, _, _⟩
              · rcases hact with h | h | h <;> rw [hq] at h <;> exact absurd h (by decide)
              · exact hid2 hid
              · rw [hq] at hp; exact absurd hp (by decide)
          · rw [if_neg (fun hcon => hid hcon.2), if_pos hq]
            rw [(finish_command_response_some_iff_and_format g.quiet add.response
              add.image_some g.id 0 0).1]
            unfold respondsVia
            constructor
            · intro h
              exact Or.inr ⟨hconf, Or.inr (Or.inl ⟨hq, hid, h⟩)⟩
            · intro h
              rcases h with ⟨hc, _⟩ | ⟨_, h3⟩
              · exact absurd hc hconf
              · rcases h3 with ⟨hact, _⟩ | ⟨_, _, hr⟩ | ⟨hp, _, _⟩
                · rcases hact with h | h | h <;> rw [hq] at h <;> exact absurd h (by decide)
                · exact hr
                · rw [hq] at hp; exact absurd hp (by decide)
        · rw [if_neg (fun hcon => hq hcon.1), if_neg hq]
          rw [(finish_command_response_some_iff_and_format g.quiet add.response
            add.image_some add.init_id add.init_placement_id add.init_image_number).1]
          unfold respondsVia
          have hact3 : g.action = Char.ofNat 0 ∨ g.action = 't' ∨ g.action = 'T' := by
            rcases hgrp with h | h | h | h
            · exact Or.inl h
            · exact Or.inr (Or.inl h)
            · exact Or.inr (Or.inr h)
            · exact absurd h hq
          constructor
          · intro h
            exact Or.inr ⟨hconf, Or.inl ⟨hact3, h⟩⟩
          · intro h
            rcases h with ⟨hc, _⟩ | ⟨_, h3⟩
            · exact absurd hc hconf
            · rcases h3 with ⟨_, hr⟩ | ⟨hq2, _, _⟩ | ⟨hp, _, _⟩
              · exact hr
              · exact absurd hq2 hq
              · rcases hact3 with h | h | h <;> rw [hp] at h <;> exact absurd h (by decide)
      · rw [if_neg hgrp]
        push_neg at hgrp
        obtain ⟨h0, ht, hT, hq⟩ := hgrp
        by_cases hp : g.action = 'p'
        · rw [if_pos hp]
          by_cases hid0 : g.id = 0 ∧ g.image_number = 0
          · rw [if_pos hid0]
            simp only [Option.isSome_none, Bool.false_eq_true, false_iff]
            intro hR
            rcases hR with ⟨hc, _⟩ | ⟨_, h3⟩
            · exact hconf hc
            · rcases h3 with ⟨hact, _⟩ | ⟨hq2, _, _⟩ | ⟨_, hid2, _⟩
              · rcases hact with h | h | h <;> exact absurd h (by assumption)
              · exact hq hq2
              · exact hid2 hid0
          · rw [if_neg hid0]
            rw [(finish_command_response_some_iff_and_format g.quiet
              (handle_put_command m g c cell now).response true
              (handle_put_command m g c cell now).ret g.placement_id g.image_number).1]
            unfold respondsVia
            constructor
            · intro h
              exact Or.inr ⟨hconf, Or.inr (Or.inr ⟨hp, hid0, h⟩)⟩
            · intro h
              rcases h with ⟨hc, _⟩ | ⟨_, h3⟩
              · exact absurd hc hconf
              · rcases h3 with ⟨hact, _⟩ | ⟨hq2, _, _⟩ | ⟨_, _, hr⟩
                · rcases hact with h | h | h <;> exact absurd h (by assumption)
                · exact absurd hq2 hq
                · exact hr
        · rw [if_neg hp]
          have hnone : (if g.action = 'd' then (none : Option String) else none) = none := by
            split_ifs <;> rfl
          rw [hnone]
          simp only [Option.isSome_none, Bool.false_eq_true, false_iff]
          intro hR
          rcases hR with ⟨hc, _⟩ | ⟨_, h3⟩
          · exact hconf hc
          · rcases h3 with ⟨hact, _⟩ | ⟨hq2, _, _⟩ | ⟨hp2, _, _⟩
            · rcases hact with h | h | h <;> exact absurd h (by assumption)
            · exact hq hq2
            · exact hp hp2
  · intro s hs
    unfold grman_handle_command_response at hs
    split_ifs at hs
    all_goals first
      | cases hs
      | exact finish_response_format_exists _ _ _ _ _ _ s hs

def c3_wit_m : GraphicsManager :=
  { images := [{ zeroImage with client_id := 3, width := 10, height := 10, data_loaded := true }],
    used_storage := 0, layers_dirty := false, loading_image := 0 }

def c3_wit_g : GraphicsCommand := { zeroCommand with action := 'p', id := 3 }

def c3_wit_add : AddOutcome :=
  { image_some := false, response := "", init_id := 0, init_placement_id := 0,
    init_image_number := 0 }

theorem grman_response_iff_and_format_witness :
    (grman_handle_command_response c3_wit_m c3_wit_g ⟨0, 0⟩ ⟨8, 16⟩ 7 c3_wit_add).isSome
        = true ∧
      (∃ iid inum pid cr, "Gi=3;OK" = response_format iid inum pid cr) :=
  ⟨(grman_response_iff_and_format c3_wit_m c3_wit_g ⟨0, 0⟩ ⟨8, 16⟩ 7 c3_wit_add).1.mpr
      (Or.inr ⟨by decide, Or.inr (Or.inr ⟨rfl, by decide, by decide⟩)⟩),
   (grman_response_iff_and_format c3_wit_m c3_wit_g ⟨0, 0⟩ ⟨8, 16⟩ 7 c3_wit_add).2
      "Gi=3;OK" (by decide)⟩

def c3_cex_m : GraphicsManager :=
  { images := [], used_storage := 0, layers_dirty := false, loading_image := 0 }

def c3_cex_g : GraphicsCommand := { zeroCommand with action := 'd', delete_action := 'a', id := 5 }

def c3_cex_gq : GraphicsCommand := { zeroCommand with action := 'q', image_number := 7 }

/-- C3 (counterexample): a delete (`action = 'd'`) with a nonzero id and
`quiet = 0` — not silenced, carrying an identity — returns NULL: the `d` arm
of `grman_handle_command` never assigns `ret` (lines 945-947).  Likewise a
query carrying only an image number returns NULL (line 927 breaks before any
response is built).  So the claimed iff over `grman_handle_command` fails. -/
theorem delete_with_identity_no_response :
    grman_handle_command_response c3_cex_m c3_cex_g ⟨0, 0⟩ ⟨8, 16⟩ 7 c3_wit_add = none ∧
      c3_cex_g.quiet = 0 ∧ c3_cex_g.id = 5 ∧
      grman_handle_command_response c3_cex_m c3_cex_gq ⟨0, 0⟩ ⟨8, 16⟩ 7 c3_wit_add = none ∧
      c3_cex_gq.quiet = 0 ∧ c3_cex_gq.image_number = 7 := by
  refine ⟨by decide, by decide, by decide, by decide, by decide, by decide⟩

/-! ## C5: direct-transmission buffer growth -/

theorem add_direct_append_eq_none_iff (fmt : Nat) (ld : LoadData) (p : List Nat) :
    add_direct_append fmt ld p = none ↔
      (u64sub ld.buf_capacity ld.buf_used < p.length ∧
        (ld.buf_used + p.length > MAX_DATA_SZ ∨ fmt ≠ 100)) := by
  unfold add_direct_append
  split_ifs with h1 h2 <;> simp_all

theorem add_direct_append_some_eq (fmt : Nat) (ld : LoadData) (p : List Nat) (ld2 : LoadData) :
    add_direct_append fmt ld p = some ld2 →
      ld2 = { ld with
        buf := ld.buf ++ p,
        buf_used := ld.buf_used + p.length,
        buf_capacity :=
          if u64sub ld.buf_capacity ld.buf_used < p.length
          then min (2 * ld.buf_capacity) MAX_DATA_SZ else ld.buf_capacity } := by
  unfold add_direct_append
  split_ifs with h1 h2
  · intro h; cases h
  · intro h
    simpa using (Option.some_inj.mp h).symm
  · intro h
    simpa using (Option.some_inj.mp h).symm

/-- C5 (amended): on a direct continuation chunk whose payload does not fit
the remaining capacity, the command fails with `EFBIG` exactly when the
accumulated data would exceed the 4*10^8-byte cap OR the format is not PNG
(only PNG transmissions ever grow the buffer); in the surviving PNG case the
capacity is doubled once, clamped to the cap — which need not suffice for the
payload — and the payload is appended. -/
theorem add_direct_append_growth_characterization (fmt : Nat) (ld : LoadData) (p : List Nat) :
    (add_direct_append fmt ld p = none ↔
      (u64sub ld.buf_capacity ld.buf_used < p.length ∧
        (ld.buf_used + p.length > MAX_DATA_SZ ∨ fmt ≠ 100))) ∧
    (∀ ld2, add_direct_append fmt ld p = some ld2 →
      ld2.buf_capacity =
        (if u64sub ld.buf_capacity ld.buf_used < p.length
          then min (2 * ld.buf_capacity) MAX_DATA_SZ else ld.buf_capacity) ∧
      ld2.buf_used = ld.buf_used + p.length ∧
      ld2.buf = ld.buf ++ p) := by
  refine ⟨add_direct_append_eq_none_iff fmt ld p, ?_⟩
  intro ld2 h
  rw [add_direct_append_some_eq fmt ld p ld2 h]
  exact ⟨rfl, rfl, rfl⟩

def c5_wit_ld : LoadData := { zeroLoadData with buf_capacity := 10, buf_used := 8, data_sz := 90 }

theorem add_direct_append_growth_characterization_witness :
    add_direct_append 24 c5_wit_ld [1, 2, 3, 4] = none ∧
      (∀ ld2, add_direct_append 100 c5_wit_ld [1, 2, 3, 4] = some ld2 →
        ld2.buf_capacity =
          (if u64sub c5_wit_ld.buf_capacity c5_wit_ld.buf_used < ([1, 2, 3, 4] : List Nat).length
            then min (2 * c5_wit_ld.buf_capacity) MAX_DATA_SZ else c5_wit_ld.buf_capacity) ∧
        ld2.buf_used = c5_wit_ld.buf_used + ([1, 2, 3, 4] : List Nat).length ∧
        ld2.buf = c5_wit_ld.buf ++ [1, 2, 3, 4]) :=
  ⟨(add_direct_append_growth_characterization 24 c5_wit_ld [1, 2, 3, 4]).1.mpr
      ⟨by decide, Or.inr (by decide)⟩,
   (add_direct_append_growth_characterization 100 c5_wit_ld [1, 2, 3, 4]).2⟩

def c5_cex_ld : LoadData := { zeroLoadData with buf_capacity := 22, buf_used := 12, data_sz := 12 }

/-- C5 (counterexample): an RGB (`format = 24`) continuation chunk of 11
bytes against a buffer with 10 free bytes fails with `EFBIG` even though the
accumulated size (23 bytes) is far below the 4*10^8-byte cap, and no growth
is attempted: the growth path is reserved for PNG data. -/
theorem direct_append_efbig_below_cap :
    add_direct_append 24 c5_cex_ld [0, 0, 0, 0, 0, 0, 0, 0, 0, 0, 0] = none ∧
      c5_cex_ld.buf_used + 11 ≤ MAX_DATA_SZ := by
  decide

/-! ## C9: put on an image whose data never loaded -/

/-- C9 (confirmed): a put that resolves to an existing image with
`data_loaded == false` records an `ENOENT` failure response, appends no
placement (the manager is returned untouched), and leaves the cursor where
it was; the returned id is the image's client id. -/
theorem put_unloaded_image_enoent_no_mutation (m : GraphicsManager) (g : GraphicsCommand)
    (c : Cursor) (cell : CellPixelSize) (now : Nat) (i : Nat) :
    resolve_put_image m g = some i →
    (m.images.getD i zeroImage).data_loaded = false →
    handle_put_command m g c cell now =
      { manager := m, cursor := c,
        response := "ENOENT:Put command refers to image with id: " ++ toString g.id
          ++ " that could not load its data",
        ret := (m.images.getD i zeroImage).client_id } := by
  intro hres hdl
  unfold handle_put_command
  rw [hres]
  dsimp only
  rw [hdl]
  simp

def c9_wit_m : GraphicsManager :=
  { images := [{ zeroImage with client_id := 3, width := 10, height := 10, data_loaded := false }],
    used_storage := 0, layers_dirty := false, loading_image := 0 }

def c9_wit_g : GraphicsCommand := { zeroCommand with id := 3 }

theorem put_unloaded_image_enoent_no_mutation_witness :
    handle_put_command c9_wit_m c9_wit_g ⟨2, 5⟩ ⟨8, 16⟩ 7 =
      { manager := c9_wit_m, cursor := ⟨2, 5⟩,
        response := "ENOENT:Put command refers to image with id: " ++ toString c9_wit_g.id
          ++ " that could not load its data",
        ret := (c9_wit_m.images.getD 0 zeroImage).client_id } :=
  put_unloaded_image_enoent_no_mutation c9_wit_m c9_wit_g ⟨2, 5⟩ ⟨8, 16⟩ 7 0
    (by decide) (by decide)

/-! ## C10: adds with GPU uploads disabled -/

theorem add_direct_append_buf (fmt : Nat) (ld : LoadData) (p : List Nat) (ld2 : LoadData)
    (h0 : ld.buf = []) (h : add_direct_append fmt ld p = some ld2) : ld2.buf = p := by
  rw [add_direct_append_some_eq fmt ld p ld2 h]
  simp [h0]

/-- C10 (confirmed): when `send_to_gpu` is false, a successful direct raw add
returns with the manager's `used_storage` unchanged, the image's
`used_storage` still 0 (as set by the init block), no texture, and the
decoded bitmap retained in `load_data.data`. -/
theorem add_without_gpu_keeps_storage_uncharged (used : Nat) (g : GraphicsCommand)
    (payload : List Nat) (now iid tex used2 : Nat) (img2 : Image) :
    handle_add_command_direct used g payload now iid false tex = some (used2, img2) →
    used2 = used ∧ img2.used_storage = 0 ∧ img2.texture_id = 0 ∧
      img2.load_data.data = payload := by
  intro h
  unfold handle_add_command_direct at h
  dsimp only at h
  repeat' split at h
  all_goals try cases h
  all_goals unfold add_finalize_upload at h
  all_goals dsimp only at h
  all_goals repeat' split at h
  all_goals try cases h
  all_goals try (rename_i hup; rw [Bool.and_false] at hup; cases hup)
  all_goals refine ⟨rfl, rfl, rfl, ?_⟩
  all_goals exact add_direct_append_buf _ _ _ _ rfl (by assumption)

def c10_wit_g : GraphicsCommand :=
  { zeroCommand with format := 24, data_width := 2, data_height := 2 }

def c10_wit_payload : List Nat := [7, 7, 7, 7, 7, 7, 7, 7, 7, 7, 7, 7]

def c10_wit_img : Image :=
  { internal_id := 1, client_id := 0, client_number := 0, width := 2, height := 2,
    texture_id := 0, atime := 3, used_storage := 0, data_loaded := true,
    load_data := { buf := c10_wit_payload, buf_capacity := 22, buf_used := 12,
                   data := c10_wit_payload, data_sz := 12, mapped_file := false,
                   mapped_file_sz := 0, solid := true, aligned4 := false },
    refs := [] }

theorem add_without_gpu_keeps_storage_uncharged_witness :
    5 = 5 ∧ c10_wit_img.used_storage = 0 ∧ c10_wit_img.texture_id = 0 ∧
      c10_wit_img.load_data.data = c10_wit_payload :=
  add_without_gpu_keeps_storage_uncharged 5 c10_wit_g c10_wit_payload 3 1 0 5 c10_wit_img
    (by decide)

/-! ## C8: row deletes and the miscast conjunct -/

def c8_ref : ImageRef := { zeroRef with start_row := -2, effective_num_rows := 1 }

def c8_g : GraphicsCommand := { zeroCommand with delete_action := 'y', y_offset := 1 }

def c8_m : GraphicsManager :=
  { images := [{ zeroImage with client_id := 7, data_loaded := true, refs := [c8_ref] }],
    used_storage := 0, layers_dirty := false, loading_image := 0 }

/-- C8 (code bug): the source casts the RESULT of the second comparison in
`y_filter_func` to `int32_t` instead of its operand (compare `x_filter_func`,
which casts the operand), so the comparison runs in `uint32_t` arithmetic.
For a placement scrolled to `start_row = -2` with one row (span rows -2..-2)
and a delete at `y_offset = 1` (query row 0), the wrapped comparison
`0 < 2^32 - 1` holds and the code deletes the placement, although row 0 lies
outside the span and the specified row-containment semantics reject it. -/
theorem y_delete_matches_row_outside_span :
    y_filter_func c8_g c8_ref = true ∧
      ¬ specRowContains c8_ref 1 ∧
      (handle_delete_y c8_m c8_g).images =
        [{ zeroImage with client_id := 7, data_loaded := true, refs := [] }] := by
  refine ⟨by decide, by decide, ?_⟩
  decide

/-! ## C6: render-data draw order -/

theorem int32wrapI_eq_self (i : Int) (h1 : -2147483648 ≤ i) (h2 : i < 2147483648) :
    int32wrapI i = i := by
  unfold int32wrapI toInt32
  split_ifs with h <;> omega

theorem toInt32_u64sub_le_iff (a b : Nat) (ha : a < 2147483648) (hb : b < 2147483648) :
    (toInt32 (u64sub a b) ≤ 0 ↔ a ≤ b) ∧ (toInt32 (u64sub a b) = 0 ↔ a = b) := by
  unfold toInt32 u64sub
  split_ifs with h <;> constructor <;> constructor <;> intro hx <;> omega

/-- The draw order the spec asks for: `z_index` ascending, ties broken by
`image_id` ascending. -/
def rdLex (a b : ImageRenderData) : Prop :=
  a.z_index < b.z_index ∨ (a.z_index = b.z_index ∧ a.image_id ≤ b.image_id)

/-- Entries whose pairwise comparator arithmetic cannot wrap: `z_index`
within plus/minus 2^30 and `image_id` below 2^31. -/
def rdBounded (e : ImageRenderData) : Prop :=
  -1073741824 ≤ e.z_index ∧ e.z_index < 1073741824 ∧ e.image_id < 2147483648

instance (e : ImageRenderData) : Decidable (rdBounded e) := by
  unfold rdBounded; infer_instance

theorem cmp_rd_le_iff (a b : ImageRenderData) (ha : rdBounded a) (hb : rdBounded b) :
    (cmp_by_zindex_and_image a b ≤ 0 ↔ rdLex a b) := by
  obtain ⟨ha1, ha2, ha3⟩ := ha
  obtain ⟨hb1, hb2, hb3⟩ := hb
  have hwrap : int32wrapI (a.z_index - b.z_index) = a.z_index - b.z_index :=
    int32wrapI_eq_self _ (by omega) (by omega)
  unfold cmp_by_zindex_and_image
  rw [hwrap]
  by_cases hz : a.z_index - b.z_index = 0
  · rw [if_pos hz]
    have hzz : a.z_index = b.z_index := by omega
    rw [(toInt32_u64sub_le_iff a.image_id b.image_id ha3 hb3).1]
    unfold rdLex
    constructor
    · intro h; exact Or.inr ⟨hzz, h⟩
    · intro h
      rcases h with h | h
      · omega
      · exact h.2
  · rw [if_neg hz]
    unfold rdLex
    omega

theorem rdLex_trans (a b c : ImageRenderData) :
    rdLex a b → rdLex b c → rdLex a c := by
  unfold rdLex
  omega

theorem rdLex_total_of_not (a b : ImageRenderData) : ¬ rdLex a b → rdLex b a := by
  unfold rdLex
  omega

/-- C6 (amended): after the sort, the render data is ascending in
`(z_index, image_id)` for every pair, PROVIDED no pairwise comparator
subtraction wraps (e.g. all `z_index` within plus/minus 2^30 and ids below
2^31); for wider spreads the `int` subtraction in `cmp_by_zindex_and_image`
wraps and inverts the order (see the counterexample). -/
theorem render_sort_sorted_when_z_and_ids_small (l : List ImageRenderData)
    (hb : ∀ e ∈ l, rdBounded e) :
    (sort_render_data l).Pairwise rdLex := by
  unfold sort_render_data
  apply pairwise_isortCmp _ rdLex rdBounded _
    (fun a b c _ _ _ hab hbc => rdLex_trans a b c hab hbc) l hb
  intro a b ha hb2
  by_cases hle : cmp_by_zindex_and_image a b ≤ 0
  · simp only [decide_eq_true hle, if_true]
    exact (cmp_rd_le_iff a b ha hb2).mp hle
  · simp only [decide_eq_false hle, Bool.false_eq_true, if_false]
    apply rdLex_total_of_not
    intro hlex
    exact hle ((cmp_rd_le_iff a b ha hb2).mpr hlex)

def c6_wit_l : List ImageRenderData :=
  [⟨5, 2, 0, 0⟩, ⟨-3, 9, 0, 0⟩, ⟨5, 1, 0, 0⟩]

theorem render_sort_sorted_when_z_and_ids_small_witness :
    (sort_render_data c6_wit_l).Pairwise rdLex :=
  render_sort_sorted_when_z_and_ids_small c6_wit_l (by decide)

def c6_cex_a : ImageRenderData := ⟨-2000000000, 1, 0, 0⟩

def c6_cex_b : ImageRenderData := ⟨2000000000, 2, 0, 0⟩

/-- C6 (counterexample): with `z_index = -2*10^9` and `2*10^9` the comparator
difference `-4*10^9` wraps to `+294967296`, so `cmp_by_zindex_and_image`
reports the lower z as GREATER in both orientations (the wrapped values are
`+294967296` and `-294967296`), and the sorted render data places z
`2*10^9` before z `-2*10^9` — not ascending.  The claim's own example pair
(`-2*10^9`, `3`) has a difference that still fits `int32`, but any pair with
difference magnitude at least 2^31 is mis-ordered, whichever orientation a
`qsort` implementation queries. -/
theorem render_sort_not_ascending_on_wide_z_range :
    sort_render_data [c6_cex_a, c6_cex_b] = [c6_cex_b, c6_cex_a] ∧
      c6_cex_a.z_index < c6_cex_b.z_index ∧
      cmp_by_zindex_and_image c6_cex_a c6_cex_b = 294967296 ∧
      cmp_by_zindex_and_image c6_cex_b c6_cex_a = -294967296 := by
  refine ⟨?_, by decide, by decide, by decide⟩
  decide

/-! ## C4: free client-id allocation -/

theorem cmp_client_ids_le_iff (a b : Nat) (ha : a < 2147483648) (hb : b < 2147483648) :
    (cmp_client_ids a b ≤ 0 ↔ a ≤ b) := by
  unfold cmp_client_ids toInt32 u32sub
  split_ifs with h <;> omega

theorem free_id_scan_spec :
    ∀ (l : List Nat) (prev : Nat),
      l.Pairwise (· ≤ ·) → (∀ x ∈ l, prev ≤ x) → (∀ x ∈ l, x < 2147483648) →
      prev < 2147483648 →
      prev < free_id_scan l prev (prev + 1) ∧
      (∀ k, prev < k → k < free_id_scan l prev (prev + 1) → k ∈ l) ∧
      free_id_scan l prev (prev + 1) ∉ l := by
  intro l
  induction l with
  | nil =>
    intro prev _ _ _ _
    refine ⟨by simp [free_id_scan], ?_, by simp [free_id_scan]⟩
    intro k hk1 hk2
    simp only [free_id_scan] at hk2
    omega
  | cons id t ih =>
    intro prev hpw hge hbound hprev
    have hid_ge : prev ≤ id := hge id (by simp)
    have hid_b : id < 2147483648 := hbound id (by simp)
    have hpw_t : t.Pairwise (· ≤ ·) := (List.pairwise_cons.mp hpw).2
    have hts : ∀ x ∈ t, id ≤ x := (List.pairwise_cons.mp hpw).1
    have htb : ∀ x ∈ t, x < 2147483648 := fun x hx => hbound x (by simp [hx])
    by_cases h1 : id = prev
    · simp only [free_id_scan, if_pos h1]
      obtain ⟨ha, hb2, hc⟩ :=
        ih prev hpw_t (fun x hx => h1 ▸ hts x hx) htb hprev
      refine ⟨ha, ?_, ?_⟩
      · intro k hk1 hk2
        exact List.mem_cons_of_mem _ (hb2 k hk1 hk2)
      · intro hmem
        rcases List.mem_cons.mp hmem with heq | hmem2
        · omega
        · exact hc hmem2
    · by_cases h2 : id ≠ prev + 1
      · simp only [free_id_scan, if_neg h1, if_pos h2]
        have hgt : prev + 1 < id := by omega
        refine ⟨by omega, ?_, ?_⟩
        · intro k hk1 hk2; omega
        · intro hmem
          rcases List.mem_cons.mp hmem with heq | hmem2
          · omega
          · have := hts _ hmem2; omega
      · simp only [free_id_scan, if_neg h1, if_neg h2]
        have hid_eq : id = prev + 1 := by omega
        have hu : u32 (id + 1) = id + 1 := by unfold u32; omega
        rw [hu]
        obtain ⟨ha, hb2, hc⟩ := ih id hpw_t hts htb hid_b
        refine ⟨by omega, ?_, ?_⟩
        · intro k hk1 hk2
          by_cases hk : k = id
          · exact hk ▸ List.mem_cons_self _ _
          · have hki : id < k := by omega
            exact List.mem_cons_of_mem _ (hb2 k hki hk2)
        · intro hmem
          rcases List.mem_cons.mp hmem with heq | hmem2
          · omega
          · exact hc hmem2

/-- C4 (amended): when every existing client id fits in 31 bits (so that the
`uint32_t` subtraction in `cmp_client_ids` is a consistent ordering),
`get_free_client_id` returns the smallest positive integer not used as a
client id by any image; with ids spanning 2^31 or more the comparator is
inconsistent and a used id can be returned (see the counterexample). -/
theorem get_free_client_id_smallest_unused (images : List Image)
    (hb : ∀ img ∈ images, img.client_id < 2147483648) :
    0 < get_free_client_id images ∧
    (∀ img ∈ images, img.client_id ≠ get_free_client_id images) ∧
    (∀ k, 0 < k → k < get_free_client_id images →
      ∃ img ∈ images, img.client_id = k) := by
  unfold get_free_client_id
  by_cases h0 : images.length = 0
  · rw [if_pos h0]
    have he : images = [] := List.length_eq_zero.mp h0
    subst he
    refine ⟨Nat.one_pos, by simp, ?_⟩
    intro k hk1 hk2; omega
  · rw [if_neg h0]
    dsimp only
    set cs := images.filterMap
      (fun q => if q.client_id ≠ 0 then some q.client_id else none) with hcs
    have hmem_cs : ∀ x, x ∈ cs ↔ ∃ img ∈ images, img.client_id = x ∧ x ≠ 0 := by
      intro x
      rw [hcs]
      simp only [List.mem_filterMap]
      constructor
      · rintro ⟨a, hal, hax⟩
        by_cases hz : a.client_id ≠ 0
        · rw [if_pos hz] at hax
          have hx := Option.some_inj.mp hax
          exact ⟨a, hal, hx, hx ▸ hz⟩
        · rw [if_neg hz] at hax; cases hax
      · rintro ⟨a, hal, hax, hnz⟩
        refine ⟨a, hal, ?_⟩
        rw [if_pos (by rw [hax]; exact hnz)]
        rw [hax]
    by_cases h1 : cs.length = 0
    · rw [if_pos h1]
      have hcse : cs = [] := List.length_eq_zero.mp h1
      refine ⟨Nat.one_pos, ?_, ?_⟩
      · intro img hi heq
        have h1m : (1 : Nat) ∈ cs := (hmem_cs 1).mpr ⟨img, hi, heq, one_ne_zero⟩
        rw [hcse] at h1m; cases h1m
      · intro k hk1 hk2; omega
    · rw [if_neg h1]
      have hcs_b : ∀ x ∈ cs, x < 2147483648 := by
        intro x hx
        obtain ⟨img, hi, heq, _⟩ := (hmem_cs x).mp hx
        exact heq ▸ hb img hi
      set sorted := isortCmp (fun a b => decide (cmp_client_ids a b ≤ 0)) cs with hsorted
      have hmem_sorted : ∀ x, x ∈ sorted ↔ x ∈ cs := by
        intro x; rw [hsorted]; exact mem_isortCmp _ x cs
      have hs_b : ∀ x ∈ sorted, x < 2147483648 := by
        intro x hx; exact hcs_b x ((hmem_sorted x).mp hx)
      have hpw : sorted.Pairwise (· ≤ ·) := by
        rw [hsorted]
        apply pairwise_isortCmp _ (· ≤ ·) (fun x => x < 2147483648) ?_
          (fun a b c _ _ _ hab hbc => le_trans hab hbc) cs hcs_b
        intro a b ha2 hb2
        by_cases hle : cmp_client_ids a b ≤ 0
        · simp only [decide_eq_true hle, if_true]
          exact (cmp_client_ids_le_iff a b ha2 hb2).mp hle
        · simp only [decide_eq_false hle, Bool.false_eq_true, if_false]
          have := (cmp_client_ids_le_iff a b ha2 hb2)
          omega
      obtain ⟨ha, hb2, hc⟩ :=
        free_id_scan_spec sorted 0 hpw (fun x _ => Nat.zero_le x) hs_b (by omega)
      simp only [Nat.zero_add] at ha hb2 hc
      refine ⟨ha, ?_, ?_⟩
      · intro img hi heq
        have hmem : free_id_scan sorted 0 1 ∈ cs :=
          (hmem_cs _).mpr ⟨img, hi, heq, by omega⟩
        exact hc ((hmem_sorted _).mpr hmem)
      · intro k hk1 hk2
        have hk_s : k ∈ sorted := hb2 k hk1 hk2
        obtain ⟨img, hi, heq, _⟩ := (hmem_cs k).mp ((hmem_sorted k).mp hk_s)
        exact ⟨img, hi, heq⟩

def c4_wit_images : List Image :=
  [{ zeroImage with client_id := 1 }, { zeroImage with client_id := 2 }]

theorem get_free_client_id_smallest_unused_witness :
    0 < get_free_client_id c4_wit_images ∧
    (∀ img ∈ c4_wit_images, img.client_id ≠ get_free_client_id c4_wit_images) ∧
    (∀ k, 0 < k → k < get_free_client_id c4_wit_images →
      ∃ img ∈ c4_wit_images, img.client_id = k) :=
  get_free_client_id_smallest_unused c4_wit_images (by decide)

def c4_cex_images : List Image :=
  [{ zeroImage with client_id := 2147483649 }, { zeroImage with client_id := 1 }]

/-- C4 (counterexample): with existing client ids 2^31+1 and 1 (in that
array order), `cmp_client_ids` computes `(2^31+1) - 1 = 2^31` in `uint32_t`,
which reinterprets as the negative `int` `-2^31`, so the sort concludes
2^31+1 is less than 1 and leaves the ids in that order; the scan then sees
the first sorted id differ from 1 and returns 1 — an id that is already in
use (the smallest unused id is 2).  The comparator answers are inconsistent
for this pair, so a `qsort` may return either order; the modelled
deterministic sort exhibits the failing one. -/
theorem get_free_client_id_returns_used_id :
    get_free_client_id c4_cex_images = 1 ∧
      (c4_cex_images.getD 1 zeroImage).client_id = 1 := by
  constructor <;> decide

/-! ## C7: group counts over runs of equal image ids -/

/-- Index `s` begins a run: it is 0 or differs from its predecessor. -/
def isRunStart (ids : List Nat) (s : Nat) : Prop :=
  s = 0 ∨ ids.getD (s - 1) 0 ≠ ids.getD s 0

instance (ids : List Nat) (s : Nat) : Decidable (isRunStart ids s) := by
  unfold isRunStart; infer_instance

/-- `[s, s + L)` is a maximal run of equal image ids in `ids`. -/
def maximalRun (ids : List Nat) (s L : Nat) : Prop :=
  0 < L ∧ s + L ≤ ids.length ∧
    (∀ k, k < L → ids.getD (s + k) 0 = ids.getD s 0) ∧
    isRunStart ids s ∧
    (s + L = ids.length ∨ ids.getD (s + L) 0 ≠ ids.getD s 0)

instance (ids : List Nat) (s L : Nat) : Decidable (maximalRun ids s L) := by
  unfold maximalRun; infer_instance

theorem getD_set_ne (l : List Nat) (i j a d : Nat) (h : i ≠ j) :
    (l.set i a).getD j d = l.getD j d := by
  simp [List.getD_eq_getElem?_getD, List.getElem?_set_ne h]

theorem getD_set_self (l : List Nat) (i a d : Nat) (h : i < l.length) :
    (l.set i a).getD i d = a := by
  simp [List.getD_eq_getElem?_getD, List.getElem?_set_eq_of_lt a h]

theorem gc_inner_ge (ids : List Nat) (v : Nat) :
    ∀ fuel i, i ≤ gc_inner ids v fuel i := by
  intro fuel
  induction fuel with
  | zero => intro i; simp [gc_inner]
  | succ f ih =>
    intro i
    simp only [gc_inner]
    split_ifs with h1 h2
    · exact le_trans (by omega) (ih (i + 1))
    · omega
    · omega

theorem gc_inner_at_end (ids : List Nat) (v fuel i : Nat) (h : ¬ i < ids.length - 1) :
    gc_inner ids v fuel i = i := by
  cases fuel <;> simp [gc_inner, h]

theorem gc_inner_stop (ids : List Nat) (v e : Nat) (he : e < ids.length)
    (hne : ids.getD e 0 ≠ v) :
    ∀ fuel i, i < e → (∀ k, i < k → k < e → ids.getD k 0 = v) →
      e ≤ fuel + i → gc_inner ids v fuel i = e := by
  intro fuel
  induction fuel with
  | zero => intro i h1 _ h3; omega
  | succ f ih =>
    intro i h1 h2 h3
    have hlt : i < ids.length - 1 := by omega
    simp only [gc_inner, if_pos hlt]
    by_cases heq : ids.getD (i + 1) 0 = v
    · rw [if_pos heq]
      by_cases hie : i + 1 < e
      · exact ih (i + 1) hie (fun k hk1 hk2 => h2 k (by omega) hk2) (by omega)
      · have hE : i + 1 = e := by omega
        rw [hE] at heq
        exact absurd heq hne
    · rw [if_neg heq]
      by_cases hie : i + 1 < e
      · exact absurd (h2 (i + 1) (by omega) hie) heq
      · omega

theorem gc_inner_to_end (ids : List Nat) (v : Nat) :
    ∀ fuel i, i < ids.length - 1 →
      (∀ k, i < k → k ≤ ids.length - 1 → ids.getD k 0 = v) →
      ids.length - 1 ≤ fuel + i → gc_inner ids v fuel i = ids.length - 1 := by
  intro fuel
  induction fuel with
  | zero => intro i h1 _ h3; omega
  | succ f ih =>
    intro i h1 h2 h3
    simp only [gc_inner, if_pos h1]
    have heq : ids.getD (i + 1) 0 = v := h2 (i + 1) (by omega) (by omega)
    rw [if_pos heq]
    by_cases hend : i + 1 < ids.length - 1
    · exact ih (i + 1) hend (fun k hk1 hk2 => h2 k (by omega) hk2) (by omega)
    · rw [gc_inner_at_end ids v f (i + 1) hend]
      omega

theorem gc_outer_at_end (ids : List Nat) (fuel i : Nat) (gc : List Nat)
    (h : ¬ i < ids.length) : gc_outer ids fuel i gc = gc := by
  cases fuel <;> simp [gc_outer, h]

theorem gc_outer_frame (ids : List Nat) :
    ∀ fuel i (gc : List Nat) p, p < i →
      (gc_outer ids fuel i gc).getD p 0 = gc.getD p 0 := by
  intro fuel
  induction fuel with
  | zero => intro i gc p _; rfl
  | succ f ih =>
    intro i gc p hp
    by_cases hi : i < ids.length
    · simp only [gc_outer, if_pos hi]
      set j := if i = ids.length - 1 then ids.length
               else gc_inner ids (ids.getD i 0) ids.length i with hj
      have hij : i ≤ j := by
        rw [hj]
        split_ifs with h
        · omega
        · exact gc_inner_ge ids _ ids.length i
      rw [ih j (gc.set i (j - i)) p (by omega)]
      exact getD_set_ne gc i p _ 0 (by omega)
    · simp only [gc_outer, if_neg hi]

theorem run_exists (ids : List Nat) (i : Nat) (hi : i < ids.length)
    (hrs : isRunStart ids i) : ∃ L, maximalRun ids i L := by
  have hex : ∃ j, i + (j + 1) = ids.length ∨ ids.getD (i + (j + 1)) 0 ≠ ids.getD i 0 :=
    ⟨ids.length - i - 1, Or.inl (by omega)⟩
  refine ⟨Nat.find hex + 1, by omega, ?_, ?_, hrs, ?_⟩
  · have hj : Nat.find hex ≤ ids.length - i - 1 := Nat.find_min' hex (Or.inl (by omega))
    omega
  · intro k hk
    cases k with
    | zero => simp
    | succ k2 =>
      have hnk := Nat.find_min hex (m := k2) (by omega)
      push_neg at hnk
      exact hnk.2
  · exact Nat.find_spec hex

theorem run_not_lt (ids : List Nat) (s L L2 : Nat) (h1 : maximalRun ids s L)
    (h2 : maximalRun ids s L2) (h : L < L2) : False := by
  obtain ⟨hp1, hle1, _, _, hb1⟩ := h1
  obtain ⟨hp2, hle2, heq2, _, _⟩ := h2
  have heqL := heq2 L h
  rcases hb1 with hb | hb
  · omega
  · exact hb heqL

theorem run_unique (ids : List Nat) (s L L2 : Nat) (h1 : maximalRun ids s L)
    (h2 : maximalRun ids s L2) : L = L2 := by
  rcases lt_trichotomy L L2 with h | h | h
  · exact absurd (run_not_lt ids s L L2 h1 h2 h) (fun f => f)
  · exact h
  · exact absurd (run_not_lt ids s L2 L h2 h1 h) (fun f => f)

theorem gc_outer_runs (ids : List Nat) :
    ∀ fuel i (gc : List Nat), gc.length = ids.length → i < ids.length →
      isRunStart ids i → ids.length - i < fuel →
      ∀ s L, i ≤ s → maximalRun ids s L →
        (if s + L < ids.length then (gc_outer ids fuel i gc).getD s 0 = L
         else if L = 1 then (gc_outer ids fuel i gc).getD s 0 = 1
         else (gc_outer ids fuel i gc).getD s 0 = L - 1 ∧
           (gc_outer ids fuel i gc).getD (ids.length - 1) 0 = 1) := by
  intro fuel
  induction fuel with
  | zero => intro i gc _ hi _ hf; omega
  | succ f ih =>
    intro i gc hlen hi hrs hf s L his hrun
    obtain ⟨L0, hrun0⟩ := run_exists ids i hi hrs
    have hL0pos : 0 < L0 := hrun0.1
    have hL0le : i + L0 ≤ ids.length := hrun0.2.1
    have heq0 : ∀ k, k < L0 → ids.getD (i + k) 0 = ids.getD i 0 := hrun0.2.2.1
    have hrunpos : 0 < L := hrun.1
    have hrunle : s + L ≤ ids.length := hrun.2.1
    simp only [gc_outer, if_pos hi]
    by_cases hs : s = i
    · subst hs
      have hLL0 : L = L0 := run_unique ids s L L0 hrun hrun0
      subst hLL0
      by_cases hend : s + L < ids.length
      · rw [if_pos hend]
        have hsj : ¬ s = ids.length - 1 := by omega
        rw [if_neg hsj]
        have hbne : ids.getD (s + L) 0 ≠ ids.getD s 0 := by
          rcases hrun.2.2.2.2 with hb | hb
          · omega
          · exact hb
        have hj : gc_inner ids (ids.getD s 0) ids.length s = s + L := by
          apply gc_inner_stop ids _ (s + L) hend hbne ids.length s (by omega) ?_ (by omega)
          intro k hk1 hk2
          have hkk := hrun.2.2.1 (k - s) (by omega)
          rw [show s + (k - s) = k from by omega] at hkk
          exact hkk
        rw [hj, show s + L - s = L from by omega]
        rw [gc_outer_frame ids f (s + L) _ s (by omega)]
        exact getD_set_self gc s L 0 (by omega)
      · have hsLn : s + L = ids.length := by omega
        by_cases hL1 : L = 1
        · rw [if_neg hend, if_pos hL1]
          have hsn : s = ids.length - 1 := by omega
          rw [if_pos hsn]
          rw [gc_outer_at_end ids f ids.length _ (by omega)]
          rw [show ids.length - s = 1 from by omega]
          exact getD_set_self gc s 1 0 (by omega)
        · rw [if_neg hend, if_neg hL1]
          have hsn : ¬ s = ids.length - 1 := by omega
          rw [if_neg hsn]
          have hj : gc_inner ids (ids.getD s 0) ids.length s = ids.length - 1 := by
            apply gc_inner_to_end ids _ ids.length s (by omega) ?_ (by omega)
            intro k hk1 hk2
            have hkk := hrun.2.2.1 (k - s) (by omega)
            rw [show s + (k - s) = k from by omega] at hkk
            exact hkk
          rw [hj]
          obtain ⟨f2, rfl⟩ : ∃ f2, f = f2 + 1 := ⟨f - 1, by omega⟩
          simp only [gc_outer, if_pos (show ids.length - 1 < ids.length from by omega)]
          simp only [if_true]
          rw [gc_outer_at_end ids f2 ids.length _ (by omega)]
          constructor
          · rw [getD_set_ne _ _ _ _ _ (by omega)]
            rw [getD_set_self gc s _ 0 (by omega)]
            omega
          · rw [getD_set_self _ _ _ 0 (by simp [hlen]; omega)]
            omega
    · have hsgt : i < s := by omega
      have hsge : i + L0 ≤ s := by
        by_contra hcon
        push_neg at hcon
        have ha : ids.getD (s - 1) 0 = ids.getD i 0 := by
          have hkk := heq0 (s - 1 - i) (by omega)
          rw [show i + (s - 1 - i) = s - 1 from by omega] at hkk
          exact hkk
        have hb : ids.getD s 0 = ids.getD i 0 := by
          have hkk := heq0 (s - i) (by omega)
          rw [show i + (s - i) = s from by omega] at hkk
          exact hkk
        rcases hrun.2.2.2.1 with h0 | hne
        · omega
        · rw [ha, hb] at hne
          exact hne rfl
      have hstep : i + L0 < ids.length := by omega
      have hsj : ¬ i = ids.length - 1 := by omega
      rw [if_neg hsj]
      have hbne : ids.getD (i + L0) 0 ≠ ids.getD i 0 := by
        rcases hrun0.2.2.2.2 with hb | hb
        · omega
        · exact hb
      have hj : gc_inner ids (ids.getD i 0) ids.length i = i + L0 := by
        apply gc_inner_stop ids _ (i + L0) hstep hbne ids.length i (by omega) ?_ (by omega)
        intro k hk1 hk2
        have hkk := heq0 (k - i) (by omega)
        rw [show i + (k - i) = k from by omega] at hkk
        exact hkk
      rw [hj]
      have hrs2 : isRunStart ids (i + L0) := by
        right
        have ha : ids.getD (i + L0 - 1) 0 = ids.getD i 0 := by
          have hkk := heq0 (L0 - 1) (by omega)
          rw [show i + (L0 - 1) = i + L0 - 1 from by omega] at hkk
          exact hkk
        rw [ha]
        exact fun hcon => hbne hcon.symm
      exact ih (i + L0) (gc.set i (i + L0 - i)) (by simp [hlen]) hstep hrs2
        (by omega) s L hsge hrun

/-- C7 (amended): after the sort, for every maximal run of consecutive equal
image ids: if the run does not reach the last entry, its first element's
`group_count` is the run length; a run of length 1 at the last entry also
gets 1; but a run of length L >= 2 ending at the last entry gets `L - 1` at
its first element, with the final entry split off as its own group of 1 (the
inner loop cannot advance past `count - 1`, so the outer loop re-enters at
the last index). -/
theorem group_counts_run_lengths (ids : List Nat) (s L : Nat)
    (h : maximalRun ids s L) :
    (if s + L < ids.length then (groupCounts ids).getD s 0 = L
     else if L = 1 then (groupCounts ids).getD s 0 = 1
     else (groupCounts ids).getD s 0 = L - 1 ∧
       (groupCounts ids).getD (ids.length - 1) 0 = 1) := by
  have hn : 0 < ids.length := by
    have h1 := h.1
    have h2 := h.2.1
    omega
  unfold groupCounts
  exact gc_outer_runs ids (ids.length + 1) 0 (List.replicate ids.length 0)
    (by simp) hn (Or.inl rfl) (by omega) s L (Nat.zero_le s) h

theorem group_counts_run_lengths_witness :
    (groupCounts [5, 5, 7]).getD 0 0 = 2 := by
  have h := group_counts_run_lengths [5, 5, 7] 0 2 (by decide)
  simpa using h

/-- C7 (counterexample): two render entries with the same image id form a
maximal run of length 2 ending at the last entry, but the first element's
`group_count` is 1, not 2 (and the last entry forms its own group of 1): the
inner scan stops at `count - 1` without counting the final element. -/
theorem group_counts_splits_terminal_run :
    groupCounts [5, 5] = [1, 1] ∧ maximalRun [5, 5] 0 2 ∧
      (groupCounts [5, 5]).getD 0 0 ≠ 2 := by
  refine ⟨by decide, by decide, by decide⟩

end Kitty
